import Mathlib

/-!
Verification of prct: process-relationship queries and bulk signalling.

A shallow embedding of the PRCT functions of `prct.c` (the resolver
`is_ancestor`, `get_descendants`, ..., and the command entry point
`handle_prct_command`) together with theorems about them.

Modelling conventions.

* `pid_t` values are `Int`.  No arithmetic is done on pids except in
  `strtol`, whose result is narrowed to 32 bits by `to_pid_t`.
* The `/proc` file system is a fixed list of `Process` records, the
  snapshot: one record for each `/proc/<pid>/stat` that can be read, holding
  what `sscanf` stores.  `get_process_info` is a lookup by pid in that list
  (the first record with that pid), `get_all_processes` enumerates it and
  `process_exists` tests whether the pid has a record.  The table does not
  change while one function runs.
* Arrays grown with `realloc` are lists; storing an element at index
  `*count` is `acc ++ [x]`.
* The `while` loop of `is_ancestor` need not terminate, so it carries a
  fuel argument counting evaluations of the loop condition; `none` means the
  fuel ran out.  Every function that calls `is_ancestor` passes the fuel on
  and returns an `Option`.
* The function `kill` is an oracle `Int → Signal → Int` giving the return code
  of each send; the sends themselves are recorded in order.
* C strings are the lists of their characters before the terminating NUL;
  output is recorded line by line, without the newline.
-/

namespace Prct

/-! ## Data model -/

/-- One process record: `struct Process` of the source. -/
structure Process where
  pid : Int
  ppid : Int
  state : Char
deriving DecidableEq, Repr

/-- The process table read from `/proc`. -/
abbrev Snapshot := List Process

/-- The signals the program sends. -/
inductive Signal where
  | SIGKILL
  | SIGSTOP
  | SIGCONT
deriving DecidableEq, Repr

/-! ## Snapshot reader -/

/-- Source function `process_exists`: is there a `/proc/<pid>` entry. -/
def process_exists (snap : Snapshot) (pid : Int) : Bool :=
  snap.any (fun p => p.pid == pid)

/-- Source function `get_process_info`: read `/proc/<pid>/stat`; `none` is the return value 0. -/
def get_process_info (snap : Snapshot) (pid : Int) : Option Process :=
  snap.find? (fun p => p.pid == pid)

/-- Source function `get_all_processes`: every readable entry of `/proc`. -/
def get_all_processes (snap : Snapshot) : List Process :=
  snap

/-! ## Relationship resolver -/

/-- Source function `is_defunct`: state `Z`, and 0 when the record cannot be read. -/
def is_defunct (snap : Snapshot) (pid : Int) : Bool :=
  match get_process_info snap pid with
  | none => false
  | some proc => proc.state == 'Z'

/-- The `while (current > 1)` loop of `is_ancestor`.  One unit of fuel is
spent on each evaluation of the loop condition. -/
def is_ancestor_loop (snap : Snapshot) (ancestor : Int) : Nat → Int → Option Bool
  | 0, _ => none
  | fuel + 1, current =>
    if 1 < current then
      match get_process_info snap current with
      | none => some false
      | some proc =>
        if proc.ppid = ancestor then some true
        else if proc.ppid = proc.pid then some false
        else is_ancestor_loop snap ancestor fuel proc.ppid
    else some false

/-- Source function `is_ancestor(ancestor, descendant)`. -/
def is_ancestor (snap : Snapshot) (fuel : Nat) (ancestor descendant : Int) : Option Bool :=
  if ancestor = descendant then some true
  else is_ancestor_loop snap ancestor fuel descendant

/-- The `for` loop of `get_descendants` over the process array, with the
result array built so far. -/
def get_descendants_loop (snap : Snapshot) (fuel : Nat) (root : Int) :
    List Process → List Int → Option (List Int)
  | [], descendants => some descendants
  | p :: rest, descendants =>
    if p.pid ≠ root then
      match is_ancestor snap fuel root p.pid with
      | none => none
      | some true => get_descendants_loop snap fuel root rest (descendants ++ [p.pid])
      | some false => get_descendants_loop snap fuel root rest descendants
    else get_descendants_loop snap fuel root rest descendants

/-- Source function `get_descendants(root)`. -/
def get_descendants (snap : Snapshot) (fuel : Nat) (root : Int) : Option (List Int) :=
  get_descendants_loop snap fuel root (get_all_processes snap) []

/-- Source function `get_immediate_descendants(parent)`. -/
def get_immediate_descendants (snap : Snapshot) (parent : Int) : List Int :=
  (get_all_processes snap).foldl
    (fun children p => if p.ppid = parent then children ++ [p.pid] else children) []

/-- The inner `for j` loop of `get_non_direct_descendants`: the flag
`is_immediate` after scanning the children array. -/
def is_immediate_scan (d : Int) : List Int → Bool
  | [] => false
  | c :: rest => if d = c then true else is_immediate_scan d rest

/-- Source function `get_non_direct_descendants(root)`. -/
def get_non_direct_descendants (snap : Snapshot) (fuel : Nat) (root : Int) :
    Option (List Int) :=
  match get_descendants snap fuel root with
  | none => none
  | some all_descendants =>
    let immediate := get_immediate_descendants snap root
    some (all_descendants.foldl
      (fun descendants d =>
        if is_immediate_scan d immediate then descendants else descendants ++ [d]) [])

/-- Source function `get_defunct_descendants(root)`. -/
def get_defunct_descendants (snap : Snapshot) (fuel : Nat) (root : Int) :
    Option (List Int) :=
  match get_descendants snap fuel root with
  | none => none
  | some descendants =>
    some (descendants.foldl
      (fun defunct d => if is_defunct snap d then defunct ++ [d] else defunct) [])

/-- Source function `get_grandchildren(root)`. -/
def get_grandchildren (snap : Snapshot) (root : Int) : List Int :=
  (get_immediate_descendants snap root).foldl
    (fun grandchildren child =>
      (get_immediate_descendants snap child).foldl
        (fun gc cc => gc ++ [cc]) grandchildren) []

/-- Source function `get_siblings(process_id)`. -/
def get_siblings (snap : Snapshot) (process_id : Int) : List Int :=
  match get_process_info snap process_id with
  | none => []
  | some proc =>
    let parent := proc.ppid
    (get_all_processes snap).foldl
      (fun siblings p =>
        if p.ppid = parent ∧ p.pid ≠ process_id then siblings ++ [p.pid] else siblings) []

/-- Source function `get_defunct_siblings(process_id)`. -/
def get_defunct_siblings (snap : Snapshot) (process_id : Int) : List Int :=
  (get_siblings snap process_id).foldl
    (fun defunct s => if is_defunct snap s then defunct ++ [s] else defunct) []

/-! ## Signal sending -/

/-- A `for` loop that calls `kill(pids[i], sig)` for each element and drops
the return code; the result is the list of sends made, appended to `sent`. -/
def kill_each (kill : Int → Signal → Int) (sig : Signal) :
    List Int → List (Int × Signal) → List (Int × Signal)
  | [], sent => sent
  | p :: rest, sent =>
    let _rc := kill p sig
    kill_each kill sig rest (sent ++ [(p, sig)])

/-- The `for` loop of `kill_parents_of_zombies`. -/
def kill_parents_loop (snap : Snapshot) (kill : Int → Signal → Int) :
    List Int → List (Int × Signal) → List (Int × Signal)
  | [], sent => sent
  | z :: rest, sent =>
    match get_process_info snap z with
    | none => kill_parents_loop snap kill rest sent
    | some zombie =>
      let _rc := kill zombie.ppid Signal.SIGKILL
      kill_parents_loop snap kill rest (sent ++ [(zombie.ppid, Signal.SIGKILL)])

/-- Source function `kill_parents_of_zombies(root)`: the sends it makes, in order. -/
def kill_parents_of_zombies (snap : Snapshot) (kill : Int → Signal → Int) (fuel : Nat)
    (root : Int) : Option (List (Int × Signal)) :=
  match get_defunct_descendants snap fuel root with
  | none => none
  | some defunct => some (kill_parents_loop snap kill defunct [])

/-! ## Command engine -/

/-- What one command did: the lines written to standard output and to
standard error, and the signals sent, in order. -/
structure Outcome where
  stdout : List String
  stderr : List String
  signals : List (Int × Signal)
deriving DecidableEq, Repr

/-- Library function `isspace` in the C locale. -/
def isspace (c : Char) : Bool :=
  c = ' ' || (9 ≤ c.toNat && c.toNat ≤ 13)

/-- Library function `isdigit`. -/
def isdigit (c : Char) : Bool :=
  48 ≤ c.toNat && c.toNat ≤ 57

/-- Largest `long` (64 bit). -/
def LONG_MAX : Int := 2 ^ 63 - 1

/-- Smallest `long` (64 bit). -/
def LONG_MIN : Int := -(2 ^ 63)

/-- The value of a run of decimal digits. -/
def digits_value (ds : List Char) : Nat :=
  ds.foldl (fun acc c => acc * 10 + (c.toNat - 48)) 0

/-- The optional sign `strtol` accepts before the digits: whether it is a
minus, and the text after it. -/
def strtol_sign : List Char → Bool × List Char
  | '-' :: t => (true, t)
  | '+' :: t => (false, t)
  | s => (false, s)

/-- Library function `strtol(s, &endptr, 10)`: the value and the text `endptr` points at.
Leading white space and one sign are skipped; with no digit nothing is
converted and `endptr` is the start of the text; a value out of range is
clamped. -/
def strtol (s : List Char) : Int × List Char :=
  let s1 := s.dropWhile isspace
  let signed := strtol_sign s1
  let ds := signed.2.takeWhile isdigit
  let endptr := signed.2.dropWhile isdigit
  if ds = [] then (0, s)
  else
    let n : Int := digits_value ds
    let v : Int := if signed.1 then -n else n
    (max LONG_MIN (min LONG_MAX v), endptr)

/-- Narrowing of a `long` to the 32-bit `pid_t`. -/
def to_pid_t (v : Int) : Int :=
  (v + 2 ^ 31) % 2 ^ 32 - 2 ^ 31

/-- The `if (count == 0) ... else for ...` printing of the list verbs. -/
def print_pids (empty_text : String) (pids : List Int) : List String :=
  if pids.length = 0 then [empty_text] else pids.map toString

/-- Standard output only. -/
def printed (lines : List String) : Outcome :=
  { stdout := lines, stderr := [], signals := [] }

/-- Standard error only. -/
def failed (line : String) : Outcome :=
  { stdout := [], stderr := [line], signals := [] }

/-- The option dispatch of `handle_prct_command`, reached once both pids
exist. -/
def dispatch (snap : Snapshot) (kill : Int → Signal → Int) (fuel : Nat)
    (root_pid process_id : Int) (option : String) : Option Outcome :=
  if option = "-dc" then
    (get_defunct_descendants snap fuel process_id).map
      (fun defunct => printed [toString defunct.length])
  else if option = "-ds" then
    (get_non_direct_descendants snap fuel process_id).map
      (fun non_direct => printed (print_pids "No non-direct descendants" non_direct))
  else if option = "-id" then
    some (printed (print_pids "No direct descendants"
      (get_immediate_descendants snap process_id)))
  else if option = "-lg" then
    some (printed (print_pids "No sibling/s" (get_siblings snap process_id)))
  else if option = "-lz" then
    some (printed (print_pids "No defunct sibling/s" (get_defunct_siblings snap process_id)))
  else if option = "-df" then
    (get_defunct_descendants snap fuel process_id).map
      (fun defunct => printed (print_pids "No descendant zombie process/es" defunct))
  else if option = "-gc" then
    some (printed (print_pids "No grandchildren" (get_grandchildren snap process_id)))
  else if option = "-do" then
    some (printed [if is_defunct snap process_id then "Defunct" else "Not defunct"])
  else if option = "--pz" then
    (kill_parents_of_zombies snap kill fuel process_id).map
      (fun sent =>
        { stdout := ["Parents of zombie processes that are descendants of "
            ++ toString process_id ++ " have been killed"],
          stderr := [], signals := sent })
  else if option = "-sk" then
    (get_descendants snap fuel process_id).map
      (fun descendants =>
        { stdout := ["All descendants of " ++ toString process_id ++ " have been killed"],
          stderr := [], signals := kill_each kill Signal.SIGKILL descendants [] })
  else if option = "-st" then
    (get_descendants snap fuel process_id).map
      (fun descendants =>
        { stdout := ["All descendants of " ++ toString process_id ++ " have been stopped"],
          stderr := [], signals := kill_each kill Signal.SIGSTOP descendants [] })
  else if option = "-dt" then
    (get_descendants snap fuel process_id).map
      (fun descendants =>
        { stdout := ["All stopped descendants of " ++ toString process_id
            ++ " have been continued"],
          stderr := [], signals := kill_each kill Signal.SIGCONT descendants [] })
  else if option = "-rp" then
    let _rc := kill root_pid Signal.SIGKILL
    some { stdout := ["Root process " ++ toString root_pid ++ " has been killed"],
           stderr := [], signals := [(root_pid, Signal.SIGKILL)] }
  else
    some (printed ["Invalid option: " ++ option])

/-- Source function `handle_prct_command(argc, argv)`; `argc` is the length of `argv`. -/
def handle_prct_command (snap : Snapshot) (kill : Int → Signal → Int) (fuel : Nat)
    (argv : List String) : Option Outcome :=
  match argv with
  | [root_pid_str, process_id_str, option] =>
    let root := strtol root_pid_str.toList
    let process := strtol process_id_str.toList
    let root_pid := to_pid_t root.1
    let process_id := to_pid_t process.1
    if root.2 ≠ [] ∨ process.2 ≠ [] then
      some (failed "Error: root_pid and process_id must be valid integers.")
    else if ¬ process_exists snap root_pid then
      some (failed ("Error: root process with PID " ++ toString root_pid ++ " does not exist"))
    else if ¬ process_exists snap process_id then
      some (failed ("Error: process with PID " ++ toString process_id ++ " does not exist"))
    else dispatch snap kill fuel root_pid process_id option
  | _ => some (failed "Usage: prct root_pid process_id option")

/-! ## Specification vocabulary -/

/-- One parent link of the snapshot: some record has pid `c` and parent `p`. -/
def parentLink (snap : Snapshot) (c p : Int) : Prop :=
  ∃ r ∈ snap, r.pid = c ∧ r.ppid = p

/-- A parent link the ancestry walk can take: it starts at a pid above 1. -/
def walkLink (snap : Snapshot) (c p : Int) : Prop :=
  1 < c ∧ parentLink snap c p

/-- Pids are unique within the snapshot. -/
def UniquePids (snap : Snapshot) : Prop :=
  (snap.map (fun r => r.pid)).Nodup

/-- The parent links contain no cycle. -/
def NoCycle (snap : Snapshot) : Prop :=
  ∀ p, ¬ Relation.TransGen (parentLink snap) p p

/-- The tree of Scenario 1: `1 <- 10 <- (20, 21)`, `20 <- 30`, 30 defunct. -/
def scenario1 : Snapshot :=
  [⟨1, 0, 'S'⟩, ⟨10, 1, 'S'⟩, ⟨20, 10, 'S'⟩, ⟨21, 10, 'S'⟩, ⟨30, 20, 'Z'⟩]

/-- A table in which pid 1 has a parent: `1 -> 2 -> 0`. -/
def initWithParent : Snapshot :=
  [⟨1, 2, 'S'⟩, ⟨2, 0, 'S'⟩]

/-- A table whose only record is its own parent. -/
def selfParent : Snapshot :=
  [⟨5, 5, 'S'⟩]

/-- A table in which a zombie still has a child: `1 <- 10 <- 20 <- 30` with
20 and 30 defunct. -/
def zombieChain : Snapshot :=
  [⟨1, 0, 'S'⟩, ⟨10, 1, 'S'⟩, ⟨20, 10, 'Z'⟩, ⟨30, 20, 'Z'⟩]

/-- A signal sender whose every send succeeds. -/
def kill_ok : Int → Signal → Int := fun _ _ => 0

/-- A signal sender whose every send fails. -/
def kill_fail : Int → Signal → Int := fun _ _ => -1

/-- The pid a command-line text stands for: the value `strtol` converts,
narrowed to `pid_t`. -/
def pid_of (text : String) : Int :=
  to_pid_t (strtol text.toList).1

/-- Both pid texts pass the integer check and both pids exist, so that the
command reaches its option dispatch. -/
def Accepted (snap : Snapshot) (root_pid_str process_id_str : String) : Prop :=
  (strtol root_pid_str.toList).2 = [] ∧ (strtol process_id_str.toList).2 = [] ∧
    process_exists snap (pid_of root_pid_str) = true ∧
    process_exists snap (pid_of process_id_str) = true

/-- The thirteen recognized verb tokens. -/
def recognized_verbs : List String :=
  ["-dc", "-ds", "-id", "-lg", "-lz", "-df", "-gc", "-do", "--pz", "-sk", "-st", "-dt", "-rp"]

/-- The five verbs that send signals. -/
def signalling_verbs : List String :=
  ["--pz", "-sk", "-st", "-dt", "-rp"]

/-- The bulk verbs with the signal each one sends. -/
def bulk_verbs : List (String × Signal) :=
  [("-sk", Signal.SIGKILL), ("-st", Signal.SIGSTOP), ("-dt", Signal.SIGCONT)]

/-- The completion line of the four verbs that signal relative to the target. -/
def completion_message (verb : String) (target : Int) : String :=
  if verb = "--pz" then
    "Parents of zombie processes that are descendants of " ++ toString target
      ++ " have been killed"
  else if verb = "-sk" then "All descendants of " ++ toString target ++ " have been killed"
  else if verb = "-st" then "All descendants of " ++ toString target ++ " have been stopped"
  else "All stopped descendants of " ++ toString target ++ " have been continued"

/-- The list verbs as a table: the verb, its empty-result line, and the
result of its resolver query on `target` (`none` when the query does not
return). -/
def list_verbs (snap : Snapshot) (fuel : Nat) (target : Int) :
    List (String × String × Option (List Int)) :=
  [("-ds", "No non-direct descendants", get_non_direct_descendants snap fuel target),
   ("-id", "No direct descendants", some (get_immediate_descendants snap target)),
   ("-lg", "No sibling/s", some (get_siblings snap target)),
   ("-lz", "No defunct sibling/s", some (get_defunct_siblings snap target)),
   ("-df", "No descendant zombie process/es", get_defunct_descendants snap fuel target),
   ("-gc", "No grandchildren", some (get_grandchildren snap target))]

/-- One hop of the ancestry walk for `ancestor` that goes on: the current pid
`c` is above 1 and resolves to a record whose parent is neither `ancestor`
nor the record's own pid; the walk moves to that parent `n`. -/
def walkStep (snap : Snapshot) (ancestor : Int) (c n : Int) : Prop :=
  1 < c ∧ ∃ r, get_process_info snap c = some r ∧ r.ppid ≠ ancestor ∧ r.ppid ≠ r.pid ∧
    n = r.ppid

/-- A table whose parent links form a cycle of length two: `2 -> 3 -> 2`. -/
def twoCycle : Snapshot :=
  [⟨2, 3, 'S'⟩, ⟨3, 2, 'S'⟩]

/-- A table whose chain of parents breaks: `30 -> 20 -> 15`, with no record
for pid 15. -/
def brokenChain : Snapshot :=
  [⟨30, 20, 'S'⟩, ⟨20, 15, 'S'⟩]

/-! ## Lookup lemmas -/

theorem get_process_info_some {snap : Snapshot} {c : Int} {r : Process}
    (h : get_process_info snap c = some r) : r ∈ snap ∧ r.pid = c := by
  unfold get_process_info at h
  refine ⟨List.mem_of_find?_eq_some h, ?_⟩
  have := List.find?_some h
  simpa using this

theorem get_process_info_none {snap : Snapshot} {c : Int}
    (h : get_process_info snap c = none) : ∀ r ∈ snap, r.pid ≠ c := by
  unfold get_process_info at h
  intro r hr
  have := List.find?_eq_none.1 h r hr
  simpa using this

theorem get_process_info_of_mem {snap : Snapshot} {r : Process} (hr : r ∈ snap) :
    ∃ q, get_process_info snap r.pid = some q := by
  cases h : get_process_info snap r.pid with
  | none => exact absurd rfl (get_process_info_none h r hr)
  | some q => exact ⟨q, rfl⟩

theorem get_process_info_unique {snap : Snapshot} (hu : UniquePids snap) {r : Process}
    (hr : r ∈ snap) : get_process_info snap r.pid = some r := by
  induction snap with
  | nil => cases hr
  | cons x xs ih =>
    unfold UniquePids at hu
    rw [List.map_cons, List.nodup_cons] at hu
    unfold get_process_info
    rw [List.find?_cons]
    by_cases hx : x.pid = r.pid
    · have hxr : r = x := by
        rcases List.mem_cons.1 hr with h | h
        · exact h
        · exact absurd (List.mem_map.2 ⟨r, h, hx.symm⟩) hu.1
      simp [hxr]
    · have hmem : r ∈ xs := by
        rcases List.mem_cons.1 hr with h | h
        · exact absurd (by rw [h]) hx
        · exact h
      have := ih hu.2 hmem
      unfold get_process_info at this
      have hb : (x.pid == r.pid) = false := by simpa using hx
      rw [hb]
      exact this

/-! ## The ancestry walk -/

theorem is_ancestor_loop_sound (snap : Snapshot) (a : Int) :
    ∀ (fuel : Nat) (c : Int), is_ancestor_loop snap a fuel c = some true →
      Relation.TransGen (walkLink snap) c a := by
  intro fuel
  induction fuel with
  | zero => intro c h; simp [is_ancestor_loop] at h
  | succ n ih =>
    intro c h
    unfold is_ancestor_loop at h
    split at h
    · rename_i hc
      split at h
      · simp at h
      · rename_i proc hproc
        obtain ⟨hmem, hpid⟩ := get_process_info_some hproc
        have hl : walkLink snap c proc.ppid := ⟨hc, proc, hmem, hpid, rfl⟩
        split at h
        · rename_i hpa
          rw [hpa] at hl
          exact Relation.TransGen.single hl
        · split at h
          · simp at h
          · exact Relation.TransGen.head hl (ih _ h)
    · simp at h

theorem is_ancestor_loop_mono (snap : Snapshot) (a : Int) :
    ∀ (fuel : Nat) (c : Int) (b : Bool), is_ancestor_loop snap a fuel c = some b →
      ∀ k, is_ancestor_loop snap a (fuel + k) c = some b := by
  intro fuel
  induction fuel with
  | zero => intro c b h; simp [is_ancestor_loop] at h
  | succ n ih =>
    intro c b h k
    rw [show n + 1 + k = (n + k) + 1 by omega]
    unfold is_ancestor_loop at h ⊢
    split
    · rename_i hc
      rw [if_pos hc] at h
      split
      · rename_i hnone
        rw [hnone] at h
        exact h
      · rename_i proc hproc
        rw [hproc] at h
        simp only at h
        split
        · rename_i hpa
          rw [if_pos hpa] at h
          exact h
        · rename_i hpa
          rw [if_neg hpa] at h
          split
          · rename_i hself
            rw [if_pos hself] at h
            exact h
          · rename_i hself
            rw [if_neg hself] at h
            exact ih _ _ h k
    · rename_i hc
      rw [if_neg hc] at h
      exact h

theorem is_ancestor_loop_terminates (snap : Snapshot) (a : Int)
    (hac : ∀ p, ¬ Relation.TransGen (walkLink snap) p p) :
    ∀ (fuel : Nat) (c : Int) (visited : List Int), visited.Nodup →
      (∀ v ∈ visited, v ∈ snap.map (fun r => r.pid) ∧ Relation.TransGen (walkLink snap) v c) →
      snap.length + 1 ≤ fuel + visited.length →
      is_ancestor_loop snap a fuel c ≠ none := by
  intro fuel
  induction fuel with
  | zero =>
    intro c visited hnd hv hlen
    exfalso
    have hsub : visited ⊆ snap.map (fun r => r.pid) := fun v hvm => (hv v hvm).1
    have := (hnd.subperm hsub).length_le
    simp at this
    omega
  | succ n ih =>
    intro c visited hnd hv hlen
    unfold is_ancestor_loop
    split
    · rename_i hc
      split
      · simp
      · rename_i proc hproc
        obtain ⟨hmem, hpid⟩ := get_process_info_some hproc
        have hl : walkLink snap c proc.ppid := ⟨hc, proc, hmem, hpid, rfl⟩
        split
        · simp
        · split
          · simp
          · apply ih proc.ppid (c :: visited)
            · refine List.nodup_cons.2 ⟨?_, hnd⟩
              intro hcv
              exact hac c (hv c hcv).2
            · intro v hvm
              rcases List.mem_cons.1 hvm with h | h
              · subst h
                exact ⟨List.mem_map.2 ⟨proc, hmem, hpid⟩, Relation.TransGen.single hl⟩
              · exact ⟨(hv v h).1, Relation.TransGen.tail (hv v h).2 hl⟩
            · simp only [List.length_cons]
              omega
    · simp

theorem walkLink_acyclic {snap : Snapshot} (hac : NoCycle snap) :
    ∀ p, ¬ Relation.TransGen (walkLink snap) p p := by
  intro p h
  exact hac p (Relation.TransGen.mono (fun _ _ hab => hab.2) h)

theorem is_ancestor_loop_complete (snap : Snapshot) (a : Int) (hu : UniquePids snap)
    (hself : ∀ p, ¬ walkLink snap p p) :
    ∀ (fuel : Nat) (c : Int), Relation.TransGen (walkLink snap) c a →
      is_ancestor_loop snap a fuel c ≠ some false := by
  intro fuel
  induction fuel with
  | zero => intro c _; simp [is_ancestor_loop]
  | succ n ih =>
    intro c h
    obtain ⟨b, hcb, hba⟩ := Relation.TransGen.head'_iff.1 h
    obtain ⟨hc, r, hr, hrpid, hrppid⟩ := hcb
    have hinfo : get_process_info snap c = some r := by
      rw [← hrpid]; exact get_process_info_unique hu hr
    unfold is_ancestor_loop
    rw [if_pos hc, hinfo]
    simp only
    split
    · simp
    · rename_i hpa
      split
      · rename_i hs
        exfalso
        apply hself c
        refine ⟨hc, r, hr, hrpid, ?_⟩
        rw [hs, hrpid]
      · apply ih
        rcases Relation.reflTransGen_iff_eq_or_transGen.1 hba with h1 | h1
        · exact absurd (by rw [hrppid, h1]) hpa
        · rw [hrppid]; exact h1

theorem is_ancestor_returns (snap : Snapshot) (hac : NoCycle snap) (fuel : Nat)
    (hf : snap.length + 1 ≤ fuel) (a d : Int) : is_ancestor snap fuel a d ≠ none := by
  unfold is_ancestor
  split
  · simp
  · apply is_ancestor_loop_terminates snap a (walkLink_acyclic hac) fuel d []
    · exact List.nodup_nil
    · intro v hv; cases hv
    · simpa using hf

theorem noCycle_of_rank (snap : Snapshot) (f : Int → Int)
    (h : ∀ r ∈ snap, f r.ppid < f r.pid) : NoCycle snap := by
  have key : ∀ c p, Relation.TransGen (parentLink snap) c p → f p < f c := by
    intro c p hcp
    induction hcp with
    | single hl =>
      obtain ⟨r, hr, rfl, rfl⟩ := hl
      exact h r hr
    | tail _ hl ih =>
      obtain ⟨r, hr, rfl, rfl⟩ := hl
      exact lt_trans (h r hr) ih
  intro p hp
  exact lt_irrefl _ (key p p hp)

theorem scenario1_unique : UniquePids scenario1 := by
  unfold UniquePids scenario1
  decide

theorem scenario1_noCycle : NoCycle scenario1 := by
  apply noCycle_of_rank scenario1 id
  intro r hr
  simp only [scenario1, List.mem_cons, List.mem_singleton, List.not_mem_nil, or_false] at hr
  rcases hr with rfl | rfl | rfl | rfl | rfl <;> decide

theorem initWithParent_unique : UniquePids initWithParent := by
  unfold UniquePids initWithParent
  decide

theorem initWithParent_noCycle : NoCycle initWithParent := by
  apply noCycle_of_rank initWithParent (fun x => if x = 1 then 3 else x)
  intro r hr
  simp only [initWithParent, List.mem_cons, List.mem_singleton, List.not_mem_nil, or_false] at hr
  rcases hr with rfl | rfl <;> decide

/-! ## C1: the ancestry test against the parent links -/

/-- C1 (amended): on a snapshot with unique pids and no cycle of parent links,
with fuel for one loop test per record and one more, `is_ancestor a d` returns,
and it returns true exactly when `a = d` or `a` is reached from `d` by one or
more parent links each of which leaves a pid greater than 1; otherwise it
returns false. -/
theorem is_ancestor_iff_walk (snap : Snapshot) (hu : UniquePids snap) (hac : NoCycle snap)
    (a d : Int) (fuel : Nat) (hf : snap.length + 1 ≤ fuel) :
    (is_ancestor snap fuel a d = some true ↔
      (a = d ∨ Relation.TransGen (walkLink snap) d a)) ∧
    (is_ancestor snap fuel a d = some false ↔
      ¬ (a = d ∨ Relation.TransGen (walkLink snap) d a)) := by
  have hret := is_ancestor_returns snap hac fuel hf a d
  have hsound : is_ancestor snap fuel a d = some true →
      (a = d ∨ Relation.TransGen (walkLink snap) d a) := by
    unfold is_ancestor
    split
    · intro _; left; assumption
    · intro h; right; exact is_ancestor_loop_sound snap a fuel d h
  have hcomplete : (a = d ∨ Relation.TransGen (walkLink snap) d a) →
      is_ancestor snap fuel a d ≠ some false := by
    intro h
    unfold is_ancestor
    split
    · simp
    · rename_i hne
      rcases h with h | h
      · exact absurd h hne
      · exact is_ancestor_loop_complete snap a hu
          (fun p hp => walkLink_acyclic hac p (Relation.TransGen.single hp)) fuel d h
  cases hres : is_ancestor snap fuel a d with
  | none => exact absurd hres hret
  | some b =>
    cases b with
    | true =>
      have := hsound hres
      simp [this]
    | false =>
      have : ¬ (a = d ∨ Relation.TransGen (walkLink snap) d a) := fun h =>
        hcomplete h hres
      simp [this]

/-- C1 witness: the theorem applied to the Scenario 1 tree, ancestor 10,
descendant 30. -/
theorem is_ancestor_iff_walk_witness :
    (is_ancestor scenario1 6 10 30 = some true ↔
      ((10 : Int) = 30 ∨ Relation.TransGen (walkLink scenario1) 30 10)) ∧
    (is_ancestor scenario1 6 10 30 = some false ↔
      ¬ ((10 : Int) = 30 ∨ Relation.TransGen (walkLink scenario1) 30 10)) :=
  is_ancestor_iff_walk scenario1 scenario1_unique scenario1_noCycle 10 30 6 (by decide)

/-- C1 counterexample: the claim as stated fails at the walk's stopping point.
In the Scenario 1 tree pid 0 is reached from pid 10 by two parent links, and
in the two-record snapshot `1 -> 2 -> 0` pid 2 is the parent of pid 1; both
snapshots have unique pids and no cycle, yet `is_ancestor` returns false. -/
theorem is_ancestor_stops_at_init :
    (UniquePids scenario1 ∧ NoCycle scenario1 ∧
      Relation.TransGen (parentLink scenario1) 10 0 ∧
      ∀ fuel, is_ancestor scenario1 (fuel + 2) 0 10 = some false) ∧
    (UniquePids initWithParent ∧ NoCycle initWithParent ∧
      Relation.TransGen (parentLink initWithParent) 1 2 ∧
      ∀ fuel, is_ancestor initWithParent (fuel + 1) 2 1 = some false) := by
  refine ⟨⟨scenario1_unique, scenario1_noCycle, ?_, ?_⟩,
    ⟨initWithParent_unique, initWithParent_noCycle, ?_, ?_⟩⟩
  · refine Relation.TransGen.tail (b := 1) (Relation.TransGen.single ?_) ?_
    · exact ⟨⟨10, 1, 'S'⟩, by simp [scenario1], rfl, rfl⟩
    · exact ⟨⟨1, 0, 'S'⟩, by simp [scenario1], rfl, rfl⟩
  · intro fuel
    simp [is_ancestor, is_ancestor_loop, get_process_info, scenario1]
  · exact Relation.TransGen.single ⟨⟨1, 2, 'S'⟩, by simp [initWithParent], rfl, rfl⟩
  · intro fuel
    simp [is_ancestor, is_ancestor_loop]

/-! ## Loop lemmas -/

theorem foldl_push_if {α β : Type} (c : α → Prop) [DecidablePred c] (f : α → β) :
    ∀ (l : List α) (init : List β),
      l.foldl (fun acc x => if c x then acc ++ [f x] else acc) init =
        init ++ (l.filter (fun x => decide (c x))).map f := by
  intro l
  induction l with
  | nil => intro init; simp
  | cons x xs ih =>
    intro init
    rw [List.foldl_cons, ih]
    by_cases hx : c x
    · simp [hx, List.filter_cons]
    · simp [hx, List.filter_cons]

theorem get_descendants_loop_some (snap : Snapshot) (fuel : Nat) (root : Int) :
    ∀ (l : List Process) (acc : List Int),
      (∀ r ∈ l, r.pid ≠ root → is_ancestor snap fuel root r.pid ≠ none) →
      get_descendants_loop snap fuel root l acc =
        some (acc ++ (l.filter (fun r =>
          decide (r.pid ≠ root ∧ is_ancestor snap fuel root r.pid = some true))).map
            (fun r => r.pid)) := by
  intro l
  induction l with
  | nil => intro acc _; simp [get_descendants_loop]
  | cons x xs ih =>
    intro acc h
    have hxs : ∀ r ∈ xs, r.pid ≠ root → is_ancestor snap fuel root r.pid ≠ none :=
      fun r hr => h r (List.mem_cons_of_mem _ hr)
    unfold get_descendants_loop
    by_cases hx : x.pid = root
    · simp [hx, ih _ hxs, List.filter_cons]
    · rw [if_pos hx]
      cases hres : is_ancestor snap fuel root x.pid with
      | none => exact absurd hres (h x (List.mem_cons_self _ _) hx)
      | some b =>
        cases b with
        | true => simp [hx, hres, ih _ hxs, List.filter_cons]
        | false => simp [hx, hres, ih _ hxs, List.filter_cons]

theorem get_descendants_loop_none (snap : Snapshot) (fuel : Nat) (root : Int) :
    ∀ (l : List Process) (acc : List Int),
      (∃ r ∈ l, r.pid ≠ root ∧ is_ancestor snap fuel root r.pid = none) →
      get_descendants_loop snap fuel root l acc = none := by
  intro l
  induction l with
  | nil => intro acc h; obtain ⟨r, hr, _⟩ := h; cases hr
  | cons x xs ih =>
    intro acc h
    obtain ⟨r, hr, hne, hnone⟩ := h
    unfold get_descendants_loop
    by_cases hx : x.pid = root
    · rw [if_neg (not_not.2 hx)]
      rcases List.mem_cons.1 hr with h1 | h1
      · subst h1; exact absurd hx hne
      · exact ih _ ⟨r, h1, hne, hnone⟩
    · rw [if_pos hx]
      cases hres : is_ancestor snap fuel root x.pid with
      | none => rfl
      | some b =>
        have hrx : r ∈ xs := by
          rcases List.mem_cons.1 hr with h1 | h1
          · subst h1; rw [hnone] at hres; cases hres
          · exact h1
        cases b with
        | true => exact ih _ ⟨r, hrx, hne, hnone⟩
        | false => exact ih _ ⟨r, hrx, hne, hnone⟩

theorem get_descendants_eq_none_iff (snap : Snapshot) (fuel : Nat) (root : Int) :
    get_descendants snap fuel root = none ↔
      ∃ r ∈ snap, r.pid ≠ root ∧ is_ancestor snap fuel root r.pid = none := by
  constructor
  · intro h
    by_contra hcon
    have hall : ∀ r ∈ snap, r.pid ≠ root → is_ancestor snap fuel root r.pid ≠ none := by
      intro r hr hne hnone
      exact hcon ⟨r, hr, hne, hnone⟩
    have := get_descendants_loop_some snap fuel root snap [] hall
    unfold get_descendants get_all_processes at h
    rw [this] at h
    cases h
  · intro h
    exact get_descendants_loop_none snap fuel root snap [] h

theorem mem_get_descendants (snap : Snapshot) (fuel : Nat) (root : Int) (ds : List Int)
    (h : get_descendants snap fuel root = some ds) (p : Int) :
    p ∈ ds ↔ (∃ r ∈ snap, r.pid = p) ∧ p ≠ root ∧
      is_ancestor snap fuel root p = some true := by
  have hall : ∀ r ∈ snap, r.pid ≠ root → is_ancestor snap fuel root r.pid ≠ none := by
    intro r hr hne hnone
    have := (get_descendants_eq_none_iff snap fuel root).2 ⟨r, hr, hne, hnone⟩
    rw [this] at h
    cases h
  have heq := get_descendants_loop_some snap fuel root snap [] hall
  unfold get_descendants get_all_processes at h
  rw [heq] at h
  injection h with h
  subst h
  simp only [List.nil_append, List.mem_map, List.mem_filter, decide_eq_true_eq]
  constructor
  · rintro ⟨r, ⟨hr, hne, hanc⟩, rfl⟩
    exact ⟨⟨r, hr, rfl⟩, hne, hanc⟩
  · rintro ⟨⟨r, hr, rfl⟩, hne, hanc⟩
    exact ⟨r, ⟨hr, hne, hanc⟩, rfl⟩

theorem get_descendants_returns (snap : Snapshot) (hac : NoCycle snap) (fuel : Nat)
    (hf : snap.length + 1 ≤ fuel) (root : Int) :
    ∃ ds, get_descendants snap fuel root = some ds := by
  cases h : get_descendants snap fuel root with
  | some ds => exact ⟨ds, rfl⟩
  | none =>
    obtain ⟨r, _, _, hnone⟩ := (get_descendants_eq_none_iff snap fuel root).1 h
    exact absurd hnone (is_ancestor_returns snap hac fuel hf root r.pid)

/-! ## C2: the descendants are the records the ancestry test accepts -/

/-- C2: `get_descendants root` fails to return only when one of its ancestry
tests does; on a snapshot without a cycle and with fuel for one loop test per
record and one more it returns; and whenever it returns, its result never
contains `root` and contains exactly the pids `p` of snapshot records with
`p ≠ root` for which `is_ancestor root p` is true. -/
theorem get_descendants_exact (snap : Snapshot) (root : Int) (fuel : Nat) :
    (get_descendants snap fuel root = none ↔
      ∃ r ∈ snap, r.pid ≠ root ∧ is_ancestor snap fuel root r.pid = none) ∧
    (NoCycle snap ∧ snap.length + 1 ≤ fuel →
      ∃ ds, get_descendants snap fuel root = some ds) ∧
    (∀ ds, get_descendants snap fuel root = some ds →
      root ∉ ds ∧
      ∀ p, p ∈ ds ↔ ((∃ r ∈ snap, r.pid = p) ∧ p ≠ root ∧
        is_ancestor snap fuel root p = some true)) := by
  refine ⟨get_descendants_eq_none_iff snap fuel root, ?_, ?_⟩
  · rintro ⟨hac, hf⟩
    exact get_descendants_returns snap hac fuel hf root
  · intro ds h
    refine ⟨?_, mem_get_descendants snap fuel root ds h⟩
    intro hroot
    exact ((mem_get_descendants snap fuel root ds h root).1 hroot).2.1 rfl

theorem foldl_push_unless {α : Type} (c : α → Bool) :
    ∀ (l : List α) (init : List α),
      l.foldl (fun acc x => if c x then acc else acc ++ [x]) init =
        init ++ l.filter (fun x => !c x) := by
  intro l
  induction l with
  | nil => intro init; simp
  | cons x xs ih =>
    intro init
    rw [List.foldl_cons, ih]
    cases hx : c x <;> simp [hx, List.filter_cons]

theorem foldl_push_all {α : Type} :
    ∀ (l : List α) (init : List α), l.foldl (fun acc x => acc ++ [x]) init = init ++ l := by
  intro l
  induction l with
  | nil => intro init; simp
  | cons x xs ih => intro init; rw [List.foldl_cons, ih]; simp

theorem get_immediate_descendants_eq (snap : Snapshot) (parent : Int) :
    get_immediate_descendants snap parent =
      (snap.filter (fun r => decide (r.ppid = parent))).map (fun r => r.pid) := by
  unfold get_immediate_descendants get_all_processes
  rw [foldl_push_if (fun r : Process => r.ppid = parent) (fun r => r.pid)]
  simp

theorem mem_get_immediate_descendants (snap : Snapshot) (parent p : Int) :
    p ∈ get_immediate_descendants snap parent ↔ ∃ r ∈ snap, r.pid = p ∧ r.ppid = parent := by
  rw [get_immediate_descendants_eq]
  simp only [List.mem_map, List.mem_filter, decide_eq_true_eq]
  constructor
  · rintro ⟨r, ⟨hr, hp⟩, rfl⟩; exact ⟨r, hr, rfl, hp⟩
  · rintro ⟨r, hr, rfl, hp⟩; exact ⟨r, ⟨hr, hp⟩, rfl⟩

theorem is_immediate_scan_iff (d : Int) (l : List Int) :
    is_immediate_scan d l = true ↔ d ∈ l := by
  induction l with
  | nil => simp [is_immediate_scan]
  | cons c cs ih =>
    unfold is_immediate_scan
    by_cases h : d = c
    · simp [h]
    · simp [h, ih]

theorem get_non_direct_descendants_eq (snap : Snapshot) (fuel : Nat) (root : Int) :
    get_non_direct_descendants snap fuel root =
      (get_descendants snap fuel root).map (fun ds =>
        ds.filter (fun d => !is_immediate_scan d (get_immediate_descendants snap root))) := by
  unfold get_non_direct_descendants
  cases get_descendants snap fuel root with
  | none => rfl
  | some ds =>
    simp only [Option.map_some']
    rw [foldl_push_unless (fun d => is_immediate_scan d (get_immediate_descendants snap root))]
    simp

theorem mem_get_non_direct_descendants (snap : Snapshot) (fuel : Nat) (root : Int)
    (ds : List Int) (h : get_descendants snap fuel root = some ds) :
    ∃ nd, get_non_direct_descendants snap fuel root = some nd ∧
      ∀ p, p ∈ nd ↔ p ∈ ds ∧ p ∉ get_immediate_descendants snap root := by
  rw [get_non_direct_descendants_eq, h]
  refine ⟨_, rfl, ?_⟩
  intro p
  rw [List.mem_filter]
  have := is_immediate_scan_iff p (get_immediate_descendants snap root)
  cases hs : is_immediate_scan p (get_immediate_descendants snap root)
  · rw [hs] at this
    simp [this.not.1 (by simp)]
  · rw [hs] at this
    simp [this.1 rfl]

theorem get_defunct_descendants_eq (snap : Snapshot) (fuel : Nat) (root : Int) :
    get_defunct_descendants snap fuel root =
      (get_descendants snap fuel root).map (fun ds => ds.filter (is_defunct snap)) := by
  unfold get_defunct_descendants
  cases get_descendants snap fuel root with
  | none => rfl
  | some ds =>
    simp only [Option.map_some']
    rw [foldl_push_if (fun d => is_defunct snap d = true) (fun d => d)]
    simp

theorem get_grandchildren_eq (snap : Snapshot) (root : Int) :
    get_grandchildren snap root =
      (get_immediate_descendants snap root).flatMap (get_immediate_descendants snap) := by
  unfold get_grandchildren
  have key : ∀ (l : List Int) (init : List Int),
      l.foldl (fun grandchildren child =>
        (get_immediate_descendants snap child).foldl (fun gc cc => gc ++ [cc]) grandchildren)
        init = init ++ l.flatMap (get_immediate_descendants snap) := by
    intro l
    induction l with
    | nil => intro init; simp
    | cons c cs ih =>
      intro init
      rw [List.foldl_cons, ih, foldl_push_all]
      simp
  rw [key]
  simp

/-! ## C3: non-direct descendants as a set difference -/

/-- C3: `get_non_direct_descendants root` returns exactly when
`get_descendants root` does, and then, as a set, it is `get_descendants root`
minus `get_immediate_descendants root`; the latter is the set of snapshot pids
whose parent is `root`.  On a snapshot without a cycle, fuel for one loop
test per record and one more gives the result.  In the Scenario 1 tree the
non-direct descendants of 10 are `{30}` and its immediate ones `{20, 21}`. -/
theorem get_non_direct_descendants_eq_diff (snap : Snapshot) (root : Int) (fuel : Nat) :
    ((get_non_direct_descendants snap fuel root).map List.toFinset =
      (get_descendants snap fuel root).map
        (fun ds => ds.toFinset \ (get_immediate_descendants snap root).toFinset)) ∧
    (∀ p, p ∈ get_immediate_descendants snap root ↔
      ∃ r ∈ snap, r.pid = p ∧ r.ppid = root) ∧
    (NoCycle snap ∧ snap.length + 1 ≤ fuel →
      ∃ nd, get_non_direct_descendants snap fuel root = some nd) ∧
    (get_non_direct_descendants scenario1 6 10 = some [30] ∧
      get_immediate_descendants scenario1 10 = [20, 21]) := by
  refine ⟨?_, mem_get_immediate_descendants snap root, ?_, ?_, ?_⟩
  · cases h : get_descendants snap fuel root with
    | none => rw [get_non_direct_descendants_eq, h]; rfl
    | some ds =>
      obtain ⟨nd, hnd, hmem⟩ := mem_get_non_direct_descendants snap fuel root ds h
      rw [hnd]
      simp only [Option.map_some', Option.some.injEq]
      ext p
      simp [hmem p]
  · rintro ⟨hac, hf⟩
    obtain ⟨ds, hds⟩ := get_descendants_returns snap hac fuel hf root
    obtain ⟨nd, hnd, _⟩ := mem_get_non_direct_descendants snap fuel root ds hds
    exact ⟨nd, hnd⟩
  · decide
  · decide

theorem is_ancestor_of_child (snap : Snapshot) (hu : UniquePids snap) (fuel : Nat)
    (root : Int) (r : Process) (hr : r ∈ snap) (hpp : r.ppid = root) (h1 : 1 < r.pid)
    (hne : r.pid ≠ root) (hret : is_ancestor snap fuel root r.pid ≠ none) :
    is_ancestor snap fuel root r.pid = some true := by
  unfold is_ancestor at hret ⊢
  rw [if_neg (Ne.symm hne)] at hret ⊢
  cases fuel with
  | zero => simp [is_ancestor_loop] at hret
  | succ n =>
    unfold is_ancestor_loop
    rw [if_pos h1, get_process_info_unique hu hr]
    simp [hpp]

theorem selfParent_unique : UniquePids selfParent := by
  unfold UniquePids selfParent
  decide

/-! ## C4: descendants as a disjoint union -/

/-- C4 (amended): on a snapshot with unique pids, whenever
`get_descendants root` returns (as it does without a cycle and with fuel for
one loop test per record and one more), `get_non_direct_descendants root`
returns too and `get_descendants root` is the disjoint union of the immediate
children of `root` that have a pid greater than 1 and are not `root` itself
with `get_non_direct_descendants root`: no immediate child is a non-direct
descendant, and every immediate child with pid greater than 1 other than
`root` is a descendant. -/
theorem get_descendants_disjoint_union (snap : Snapshot) (hu : UniquePids snap)
    (root : Int) (fuel : Nat) :
    (NoCycle snap ∧ snap.length + 1 ≤ fuel →
      ∃ ds, get_descendants snap fuel root = some ds) ∧
    (∀ ds, get_descendants snap fuel root = some ds →
      ∃ nd, get_non_direct_descendants snap fuel root = some nd ∧
        (∀ p, p ∈ ds ↔
          ((p ∈ get_immediate_descendants snap root ∧ 1 < p ∧ p ≠ root) ∨ p ∈ nd)) ∧
        (∀ p, p ∈ get_immediate_descendants snap root → p ∉ nd) ∧
        (∀ p, p ∈ get_immediate_descendants snap root → 1 < p → p ≠ root → p ∈ ds)) := by
  refine ⟨fun h => get_descendants_returns snap h.1 fuel h.2 root, ?_⟩
  intro ds hds
  obtain ⟨nd, hnd, hmem⟩ := mem_get_non_direct_descendants snap fuel root ds hds
  have hchild : ∀ p, p ∈ get_immediate_descendants snap root → 1 < p → p ≠ root → p ∈ ds := by
    intro p hp h1 hne
    obtain ⟨r, hr, hrp, hrpp⟩ := (mem_get_immediate_descendants snap root p).1 hp
    subst hrp
    rw [mem_get_descendants snap fuel root ds hds]
    refine ⟨⟨r, hr, rfl⟩, hne, ?_⟩
    apply is_ancestor_of_child snap hu fuel root r hr hrpp h1 hne
    intro hnone
    have := (get_descendants_eq_none_iff snap fuel root).2 ⟨r, hr, hne, hnone⟩
    rw [this] at hds
    cases hds
  have hgt : ∀ p, p ∈ ds → 1 < p ∧ p ≠ root := by
    intro p hp
    obtain ⟨_, hne, hanc⟩ := (mem_get_descendants snap fuel root ds hds p).1 hp
    refine ⟨?_, hne⟩
    unfold is_ancestor at hanc
    rw [if_neg (Ne.symm hne)] at hanc
    cases fuel with
    | zero => simp [is_ancestor_loop] at hanc
    | succ n =>
      unfold is_ancestor_loop at hanc
      by_contra hlt
      rw [if_neg hlt] at hanc
      cases hanc
  refine ⟨nd, hnd, ?_, ?_, hchild⟩
  · intro p
    constructor
    · intro hp
      by_cases himm : p ∈ get_immediate_descendants snap root
      · exact Or.inl ⟨himm, hgt p hp⟩
      · exact Or.inr ((hmem p).2 ⟨hp, himm⟩)
    · rintro (⟨himm, h1, hne⟩ | hp)
      · exact hchild p himm h1 hne
      · exact ((hmem p).1 hp).1
  · intro p himm hp
    exact ((hmem p).1 hp).2 himm

/-- C4 witness: the theorem applied to the Scenario 1 tree and root 10. -/
theorem get_descendants_disjoint_union_witness :
    UniquePids scenario1 ∧
    ((NoCycle scenario1 ∧ scenario1.length + 1 ≤ 6 →
      ∃ ds, get_descendants scenario1 6 10 = some ds) ∧
    (∀ ds, get_descendants scenario1 6 10 = some ds →
      ∃ nd, get_non_direct_descendants scenario1 6 10 = some nd ∧
        (∀ p, p ∈ ds ↔
          ((p ∈ get_immediate_descendants scenario1 10 ∧ 1 < p ∧ p ≠ 10) ∨ p ∈ nd)) ∧
        (∀ p, p ∈ get_immediate_descendants scenario1 10 → p ∉ nd) ∧
        (∀ p, p ∈ get_immediate_descendants scenario1 10 → 1 < p → p ≠ 10 → p ∈ ds))) :=
  ⟨scenario1_unique, get_descendants_disjoint_union scenario1 scenario1_unique 10 6⟩

/-- C4 counterexample: an immediate child that is not a descendant.  With pid 1
a child of pid 2, with pid 1 a child of pid 0 in the Scenario 1 tree, and with
a record that is its own parent, the child is in
`get_immediate_descendants root` while `get_descendants root` is empty. -/
theorem immediate_child_not_descendant :
    (UniquePids initWithParent ∧ get_immediate_descendants initWithParent 2 = [1] ∧
      ∀ fuel, get_descendants initWithParent (fuel + 1) 2 = some []) ∧
    (UniquePids scenario1 ∧ get_immediate_descendants scenario1 0 = [1] ∧
      ∀ fuel, get_descendants scenario1 (fuel + 5) 0 = some []) ∧
    (UniquePids selfParent ∧ get_immediate_descendants selfParent 5 = [5] ∧
      ∀ fuel, get_descendants selfParent fuel 5 = some []) := by
  refine ⟨⟨initWithParent_unique, by decide, ?_⟩, ⟨scenario1_unique, by decide, ?_⟩,
    ⟨selfParent_unique, by decide, ?_⟩⟩
  · intro fuel
    simp [get_descendants, get_all_processes, initWithParent, get_descendants_loop,
      is_ancestor, is_ancestor_loop]
  · intro fuel
    simp [get_descendants, get_all_processes, scenario1, get_descendants_loop,
      is_ancestor, is_ancestor_loop, get_process_info]
  · intro fuel
    simp [get_descendants, get_all_processes, selfParent, get_descendants_loop]

/-! ## C5: grandchildren -/

/-- C5: as a set, `get_grandchildren root` is the union of
`get_immediate_descendants c` over every `c` in
`get_immediate_descendants root`. -/
theorem get_grandchildren_eq_union (snap : Snapshot) (root : Int) :
    (get_grandchildren snap root).toFinset =
      (get_immediate_descendants snap root).toFinset.biUnion
        (fun c => (get_immediate_descendants snap c).toFinset) := by
  rw [get_grandchildren_eq]
  ext p
  simp only [List.mem_toFinset, List.mem_flatMap, Finset.mem_biUnion]

/-! ## C6: siblings -/

theorem mem_get_siblings (snap : Snapshot) (a b : Int) :
    b ∈ get_siblings snap a ↔
      ∃ ra, get_process_info snap a = some ra ∧
        ∃ rb ∈ snap, rb.pid = b ∧ rb.ppid = ra.ppid ∧ b ≠ a := by
  unfold get_siblings get_all_processes
  cases h : get_process_info snap a with
  | none => simp
  | some ra =>
    simp only
    rw [foldl_push_if (fun r : Process => r.ppid = ra.ppid ∧ r.pid ≠ a) (fun r => r.pid)]
    simp only [List.nil_append, List.mem_map, List.mem_filter, decide_eq_true_eq,
      Option.some.injEq, exists_eq_left']
    constructor
    · rintro ⟨r, ⟨hr, hpp, hne⟩, rfl⟩; exact ⟨r, hr, rfl, hpp, hne⟩
    · rintro ⟨r, hr, rfl, hpp, hne⟩; exact ⟨r, ⟨hr, hpp, hne⟩, rfl⟩

/-- C6: on a snapshot with unique pids, `get_siblings a` never contains `a`,
and whenever `b` is in `get_siblings a`, both are pids of snapshot records
with the same parent pid and `a` is in `get_siblings b`. -/
theorem get_siblings_irreflexive_symmetric (snap : Snapshot) (hu : UniquePids snap)
    (a b : Int) :
    a ∉ get_siblings snap a ∧
    (b ∈ get_siblings snap a →
      (∃ ra ∈ snap, ∃ rb ∈ snap, ra.pid = a ∧ rb.pid = b ∧ ra.ppid = rb.ppid) ∧
      a ∈ get_siblings snap b) := by
  constructor
  · intro h
    obtain ⟨_, _, _, _, _, _, hne⟩ := (mem_get_siblings snap a a).1 h
    exact hne rfl
  · intro h
    obtain ⟨ra, hra, rb, hrb, hrbpid, hpp, hne⟩ := (mem_get_siblings snap a b).1 h
    obtain ⟨hramem, hrapid⟩ := get_process_info_some hra
    refine ⟨⟨ra, hramem, rb, hrb, hrapid, hrbpid, hpp.symm⟩, ?_⟩
    rw [mem_get_siblings]
    refine ⟨rb, ?_, ra, hramem, hrapid, hpp.symm, Ne.symm hne⟩
    rw [← hrbpid]
    exact get_process_info_unique hu hrb

/-- C6 witness: the theorem applied to pids 20 and 21 of the Scenario 1 tree,
where `get_siblings 20` is `{21}`. -/
theorem get_siblings_irreflexive_symmetric_witness :
    get_siblings scenario1 20 = [21] ∧
    (20 ∉ get_siblings scenario1 20 ∧
    (21 ∈ get_siblings scenario1 20 →
      (∃ ra ∈ scenario1, ∃ rb ∈ scenario1, ra.pid = 20 ∧ rb.pid = 21 ∧ ra.ppid = rb.ppid) ∧
      20 ∈ get_siblings scenario1 21)) :=
  ⟨by decide, get_siblings_irreflexive_symmetric scenario1 scenario1_unique 20 21⟩

/-! ## C7: defunct descendants -/

theorem is_defunct_iff (snap : Snapshot) (p : Int) :
    is_defunct snap p = true ↔ ∃ r, get_process_info snap p = some r ∧ r.state = 'Z' := by
  unfold is_defunct
  cases get_process_info snap p with
  | none => simp
  | some r => simp

/-- C7: `get_defunct_descendants root` returns exactly when
`get_descendants root` does (as it does without a cycle and with fuel for one
loop test per record and one more), and it is then the sublist of the pids
`p` of `get_descendants root` with `is_defunct p`, hence a subset; and
`is_defunct p` is true exactly when `p` resolves to a record whose state is
`Z`, false when `p` does not resolve. -/
theorem get_defunct_descendants_filter (snap : Snapshot) (root : Int) (fuel : Nat) :
    (get_defunct_descendants snap fuel root =
      (get_descendants snap fuel root).map (fun ds => ds.filter (is_defunct snap))) ∧
    (∀ ds zs, get_descendants snap fuel root = some ds →
      get_defunct_descendants snap fuel root = some zs →
        zs ⊆ ds ∧ ∀ p, p ∈ zs ↔ (p ∈ ds ∧ is_defunct snap p = true)) ∧
    (NoCycle snap ∧ snap.length + 1 ≤ fuel →
      ∃ zs, get_defunct_descendants snap fuel root = some zs) ∧
    (∀ p, is_defunct snap p = true ↔
      ∃ r, get_process_info snap p = some r ∧ r.state = 'Z') ∧
    (∀ p, get_process_info snap p = none → is_defunct snap p = false) := by
  refine ⟨get_defunct_descendants_eq snap fuel root, ?_, ?_, is_defunct_iff snap, ?_⟩
  · intro ds zs hds hzs
    rw [get_defunct_descendants_eq, hds] at hzs
    simp only [Option.map_some', Option.some.injEq] at hzs
    subst hzs
    exact ⟨fun p hp => (List.mem_filter.1 hp).1, fun p => List.mem_filter⟩
  · rintro ⟨hac, hf⟩
    obtain ⟨ds, hds⟩ := get_descendants_returns snap hac fuel hf root
    rw [get_defunct_descendants_eq, hds]
    exact ⟨_, rfl⟩
  · intro p hp
    unfold is_defunct
    rw [hp]

/-! ## C8: a missing pid -/

theorem strtol_digits (ds : List Char) (hne : ds ≠ []) (hd : ∀ c ∈ ds, isdigit c = true) :
    strtol ds = (min LONG_MAX (digits_value ds), []) := by
  cases ds with
  | nil => exact absurd rfl hne
  | cons c cs =>
    have hc : isdigit c = true := hd c (List.mem_cons_self _ _)
    have hc2 : 48 ≤ c.toNat ∧ c.toNat ≤ 57 := by simpa [isdigit] using hc
    have hsp : isspace c = false := by
      have h1 : c ≠ ' ' := by
        intro h; rw [h] at hc2; revert hc2; decide
      have h2 : ¬ (9 ≤ c.toNat ∧ c.toNat ≤ 13) := by omega
      simp [isspace, h1]
      omega
    have hminus : c ≠ '-' := by
      intro h; rw [h] at hc2; revert hc2; decide
    have hplus : c ≠ '+' := by
      intro h; rw [h] at hc2; revert hc2; decide
    have htake : (c :: cs).takeWhile isdigit = c :: cs :=
      List.takeWhile_eq_self_iff.2 hd
    have hdrop : (c :: cs).dropWhile isdigit = [] :=
      List.dropWhile_eq_nil_iff.2 hd
    have hs1 : (c :: cs).dropWhile isspace = c :: cs := by
      simp [List.dropWhile_cons, hsp]
    have hsign : strtol_sign (c :: cs) = (false, c :: cs) := by
      unfold strtol_sign
      split
      · rename_i heq
        injection heq with h _
        exact absurd h hminus
      · rename_i heq
        injection heq with h _
        exact absurd h hplus
      · rfl
    have hnn : (0 : Int) ≤ (digits_value (c :: cs) : Int) := Int.ofNat_nonneg _
    have hmin : LONG_MIN ≤ min LONG_MAX (digits_value (c :: cs) : Int) := by
      apply le_min
      · unfold LONG_MIN LONG_MAX; norm_num
      · unfold LONG_MIN; linarith
    unfold strtol
    simp only [hs1, hsign, htake, hdrop]
    simp [max_eq_right hmin]

/-- C8: for pid texts that pass the integer check (each is converted to its
end by `strtol`, as every non-empty run of decimal digits is), when the root
pid or the target pid does not exist, `handle_prct_command` returns for every
verb, prints nothing to standard output, sends no signal, and writes one
not-found line to standard error naming a missing pid: the root pid when it
is missing, and otherwise the target pid. -/
theorem handle_prct_command_not_found (snap : Snapshot) (kill : Int → Signal → Int)
    (fuel : Nat) (root_pid_str process_id_str option : String)
    (hroot : (strtol root_pid_str.toList).2 = [])
    (hproc : (strtol process_id_str.toList).2 = [])
    (hmiss : process_exists snap (to_pid_t (strtol root_pid_str.toList).1) = false ∨
      process_exists snap (to_pid_t (strtol process_id_str.toList).1) = false) :
    ∃ o, handle_prct_command snap kill fuel [root_pid_str, process_id_str, option] = some o ∧
      o.signals = [] ∧ o.stdout = [] ∧
      ((process_exists snap (to_pid_t (strtol root_pid_str.toList).1) = false ∧
          o.stderr = ["Error: root process with PID " ++
            toString (to_pid_t (strtol root_pid_str.toList).1) ++ " does not exist"]) ∨
        (process_exists snap (to_pid_t (strtol root_pid_str.toList).1) = true ∧
          process_exists snap (to_pid_t (strtol process_id_str.toList).1) = false ∧
          o.stderr = ["Error: process with PID " ++
            toString (to_pid_t (strtol process_id_str.toList).1) ++ " does not exist"])) := by
  unfold handle_prct_command
  simp only [hroot, hproc, ne_eq, not_true_eq_false, or_self, if_false]
  cases hr : process_exists snap (to_pid_t (strtol root_pid_str.toList).1) with
  | false =>
    refine ⟨failed ("Error: root process with PID " ++
      toString (to_pid_t (strtol root_pid_str.toList).1) ++ " does not exist"),
      ?_, rfl, rfl, Or.inl ⟨rfl, rfl⟩⟩
    simp
  | true =>
    rw [hr] at hmiss
    have ht : process_exists snap (to_pid_t (strtol process_id_str.toList).1) = false := by
      rcases hmiss with h | h
      · cases h
      · exact h
    refine ⟨failed ("Error: process with PID " ++
      toString (to_pid_t (strtol process_id_str.toList).1) ++ " does not exist"),
      ?_, rfl, rfl, Or.inr ⟨rfl, ht, rfl⟩⟩
    rw [ht]
    simp

/-- C8 witness: Scenario 4 on the Scenario 1 tree, root 1, missing target 99,
verb `-sk`. -/
theorem handle_prct_command_not_found_witness :
    ∃ o, handle_prct_command scenario1 kill_ok 6 ["1", "99", "-sk"] = some o ∧
      o.signals = [] ∧ o.stdout = [] ∧
      ((process_exists scenario1 (to_pid_t (strtol "1".toList).1) = false ∧
          o.stderr = ["Error: root process with PID " ++
            toString (to_pid_t (strtol "1".toList).1) ++ " does not exist"]) ∨
        (process_exists scenario1 (to_pid_t (strtol "1".toList).1) = true ∧
          process_exists scenario1 (to_pid_t (strtol "99".toList).1) = false ∧
          o.stderr = ["Error: process with PID " ++
            toString (to_pid_t (strtol "99".toList).1) ++ " does not exist"])) :=
  handle_prct_command_not_found scenario1 kill_ok 6 "1" "99" "-sk" (by decide) (by decide)
    (Or.inr (by decide))

/-! ## C9 and C10: killing the parents of zombies -/

theorem kill_parents_loop_sends (snap : Snapshot) (kill : Int → Signal → Int) :
    ∀ (zs : List Int) (acc : List (Int × Signal)),
      (∀ z ∈ zs, ∃ r, get_process_info snap z = some r) →
      ∃ sent, kill_parents_loop snap kill zs acc = acc ++ sent ∧
        List.Forall₂ (fun z s => ∃ r, get_process_info snap z = some r ∧
          s = (r.ppid, Signal.SIGKILL)) zs sent := by
  intro zs
  induction zs with
  | nil =>
    intro acc _
    exact ⟨[], by simp [kill_parents_loop], List.Forall₂.nil⟩
  | cons z rest ih =>
    intro acc h
    obtain ⟨r, hr⟩ := h z (List.mem_cons_self _ _)
    obtain ⟨sent, hsent, hall⟩ :=
      ih (acc ++ [(r.ppid, Signal.SIGKILL)]) (fun y hy => h y (List.mem_cons_of_mem _ hy))
    refine ⟨(r.ppid, Signal.SIGKILL) :: sent, ?_, List.Forall₂.cons ⟨r, hr, rfl⟩ hall⟩
    unfold kill_parents_loop
    rw [hr]
    simp only
    rw [hsent]
    simp

theorem defunct_descendant_resolves (snap : Snapshot) (fuel : Nat) (target : Int)
    (zs : List Int) (h : get_defunct_descendants snap fuel target = some zs) :
    ∀ z ∈ zs, ∃ r, get_process_info snap z = some r := by
  intro z hz
  rw [get_defunct_descendants_eq] at h
  cases hds : get_descendants snap fuel target with
  | none => rw [hds] at h; cases h
  | some ds =>
    rw [hds] at h
    simp only [Option.map_some', Option.some.injEq] at h
    subst h
    obtain ⟨r, hr, _⟩ := (is_defunct_iff snap z).1 (List.mem_filter.1 hz).2
    exact ⟨r, hr⟩

theorem kill_parents_of_zombies_sends (snap : Snapshot) (kill : Int → Signal → Int)
    (fuel : Nat) (target : Int) (zs : List Int)
    (h : get_defunct_descendants snap fuel target = some zs) :
    ∃ sent, kill_parents_of_zombies snap kill fuel target = some sent ∧
      List.Forall₂ (fun z s => ∃ r, get_process_info snap z = some r ∧
        s = (r.ppid, Signal.SIGKILL)) zs sent := by
  obtain ⟨sent, hsent, hall⟩ :=
    kill_parents_loop_sends snap kill zs [] (defunct_descendant_resolves snap fuel target zs h)
  refine ⟨sent, ?_, hall⟩
  unfold kill_parents_of_zombies
  rw [h]
  simp only
  rw [hsent]
  simp

theorem dispatch_pz (snap : Snapshot) (kill : Int → Signal → Int) (fuel : Nat)
    (root_pid process_id : Int) :
    dispatch snap kill fuel root_pid process_id "--pz" =
      (kill_parents_of_zombies snap kill fuel process_id).map (fun sent =>
        { stdout := ["Parents of zombie processes that are descendants of "
            ++ toString process_id ++ " have been killed"],
          stderr := [], signals := sent }) := by
  unfold dispatch
  simp

/-- C9: `kill_parents_of_zombies target` returns exactly when
`get_defunct_descendants target` does (as it does without a cycle and with
fuel for one loop test per record and one more); its sends then correspond
one to one, in order, to the pids `z` of `get_defunct_descendants target`,
the send for `z` being SIGKILL to the parent pid of the record `z` resolves
to; the verb `--pz` sends exactly these signals; and in the Scenario 1 tree
with target 10 the only signal is SIGKILL to pid 20. -/
theorem kill_parents_of_zombies_signals (snap : Snapshot) (kill : Int → Signal → Int)
    (fuel : Nat) (target : Int) :
    (kill_parents_of_zombies snap kill fuel target = none ↔
      get_defunct_descendants snap fuel target = none) ∧
    (NoCycle snap ∧ snap.length + 1 ≤ fuel →
      ∃ sent, kill_parents_of_zombies snap kill fuel target = some sent) ∧
    (∀ zs, get_defunct_descendants snap fuel target = some zs →
      ∃ sent, kill_parents_of_zombies snap kill fuel target = some sent ∧
        List.Forall₂ (fun z s => ∃ r, get_process_info snap z = some r ∧
          s = (r.ppid, Signal.SIGKILL)) zs sent ∧
        ∀ root_pid, (dispatch snap kill fuel root_pid target "--pz").map
          (fun o => o.signals) = some sent) ∧
    ((handle_prct_command scenario1 kill 6 ["1", "10", "--pz"]).map
      (fun o => o.signals) = some [(20, Signal.SIGKILL)]) := by
  refine ⟨?_, ?_, ?_, ?_⟩
  · unfold kill_parents_of_zombies
    cases get_defunct_descendants snap fuel target <;> simp
  · rintro ⟨hac, hf⟩
    obtain ⟨ds, hds⟩ := get_descendants_returns snap hac fuel hf target
    have hzs : get_defunct_descendants snap fuel target =
        some (ds.filter (is_defunct snap)) := by
      rw [get_defunct_descendants_eq, hds]; rfl
    obtain ⟨sent, hsent, _⟩ := kill_parents_of_zombies_sends snap kill fuel target _ hzs
    exact ⟨sent, hsent⟩
  · intro zs hzs
    obtain ⟨sent, hsent, hall⟩ := kill_parents_of_zombies_sends snap kill fuel target zs hzs
    refine ⟨sent, hsent, hall, ?_⟩
    intro root_pid
    rw [dispatch_pz, hsent]
    rfl
  · rfl

theorem forall₂_mem_right {α β : Type} {R : α → β → Prop} {l : List α} {t : List β}
    (h : List.Forall₂ R l t) : ∀ s ∈ t, ∃ z ∈ l, R z s := by
  induction h with
  | nil => intro s hs; cases hs
  | cons hhead _ ih =>
    intro s hs
    rcases List.mem_cons.1 hs with h1 | h1
    · subst h1
      exact ⟨_, List.mem_cons_self _ _, hhead⟩
    · obtain ⟨z, hz, hR⟩ := ih s h1
      exact ⟨z, List.mem_cons_of_mem _ hz, hR⟩

theorem descendant_parent_ne (snap : Snapshot) (fuel : Nat) (target : Int) (ds : List Int)
    (h : get_descendants snap fuel target = some ds) (z : Int) (hz : z ∈ ds) (r : Process)
    (hr : get_process_info snap z = some r) : r.ppid ≠ z := by
  obtain ⟨_, hne, hanc⟩ := (mem_get_descendants snap fuel target ds h z).1 hz
  obtain ⟨_, hpid⟩ := get_process_info_some hr
  unfold is_ancestor at hanc
  rw [if_neg (Ne.symm hne)] at hanc
  cases fuel with
  | zero => simp [is_ancestor_loop] at hanc
  | succ n =>
    unfold is_ancestor_loop at hanc
    split at hanc
    · rw [hr] at hanc
      simp only at hanc
      split at hanc
      · rename_i hpa
        rw [hpa]
        exact Ne.symm hne
      · split at hanc
        · cases hanc
        · rename_i hself
          rw [← hpid]
          exact hself
    · cases hanc

/-- C10 (amended): whenever `get_defunct_descendants target` returns `zs`,
`kill_parents_of_zombies target` returns; the send it makes for each zombie
`z` of `zs` is SIGKILL to the parent pid of `z`, which is never `z` itself;
and a pid of `zs` is signalled only when it is the parent pid of another
member of `zs`. -/
theorem kill_parents_spares_own_zombie (snap : Snapshot) (kill : Int → Signal → Int)
    (fuel : Nat) (target : Int) (zs : List Int)
    (h : get_defunct_descendants snap fuel target = some zs) :
    ∃ sent, kill_parents_of_zombies snap kill fuel target = some sent ∧
      List.Forall₂ (fun z s => s.1 ≠ z ∧ s.2 = Signal.SIGKILL ∧
        ∃ r, get_process_info snap z = some r ∧ s.1 = r.ppid) zs sent ∧
      ∀ s ∈ sent, s.1 ∈ zs →
        ∃ z ∈ zs, z ≠ s.1 ∧ ∃ r, get_process_info snap z = some r ∧ r.ppid = s.1 := by
  obtain ⟨sent, hsent, hall⟩ := kill_parents_of_zombies_sends snap kill fuel target zs h
  have hzsub : ∀ z ∈ zs, ∀ r, get_process_info snap z = some r → r.ppid ≠ z := by
    intro z hz r hr
    have h2 := h
    rw [get_defunct_descendants_eq] at h2
    cases hds : get_descendants snap fuel target with
    | none => rw [hds] at h2; cases h2
    | some ds =>
      rw [hds] at h2
      simp only [Option.map_some', Option.some.injEq] at h2
      subst h2
      exact descendant_parent_ne snap fuel target ds hds z (List.mem_filter.1 hz).1 r hr
  have hstrong : List.Forall₂ (fun z s => z ∈ zs ∧ ∃ r, get_process_info snap z = some r ∧
      s = (r.ppid, Signal.SIGKILL)) zs sent := by
    have aux : ∀ (l : List Int) (t : List (Int × Signal)),
        List.Forall₂ (fun z s => ∃ r, get_process_info snap z = some r ∧
          s = (r.ppid, Signal.SIGKILL)) l t → (∀ z ∈ l, z ∈ zs) →
        List.Forall₂ (fun z s => z ∈ zs ∧ ∃ r, get_process_info snap z = some r ∧
          s = (r.ppid, Signal.SIGKILL)) l t := by
      intro l t hlt
      induction hlt with
      | nil => intro _; exact List.Forall₂.nil
      | cons hhead _ ih =>
        intro hsub
        exact List.Forall₂.cons ⟨hsub _ (List.mem_cons_self _ _), hhead⟩
          (ih (fun z hz => hsub z (List.mem_cons_of_mem _ hz)))
    exact aux zs sent hall (fun z hz => hz)
  refine ⟨sent, hsent, ?_, ?_⟩
  · refine List.Forall₂.imp ?_ hstrong
    rintro z s ⟨hz, r, hr, rfl⟩
    exact ⟨hzsub z hz r hr, rfl, r, hr, rfl⟩
  · intro s hs hsz
    obtain ⟨z, _, hz, r, hr, rfl⟩ := forall₂_mem_right hstrong s hs
    exact ⟨z, hz, Ne.symm (hzsub z hz r hr), r, hr, rfl⟩

/-- C10 witness: the theorem applied to a table in which zombie 20 is the
parent of zombie 30. -/
theorem kill_parents_spares_own_zombie_witness :
    get_defunct_descendants zombieChain 5 10 = some [20, 30] ∧
    ∃ sent, kill_parents_of_zombies zombieChain kill_ok 5 10 = some sent ∧
      List.Forall₂ (fun z s => s.1 ≠ z ∧ s.2 = Signal.SIGKILL ∧
        ∃ r, get_process_info zombieChain z = some r ∧ s.1 = r.ppid) [20, 30] sent ∧
      ∀ s ∈ sent, s.1 ∈ [20, 30] →
        ∃ z ∈ [20, 30], z ≠ s.1 ∧
          ∃ r, get_process_info zombieChain z = some r ∧ r.ppid = s.1 :=
  ⟨by decide, kill_parents_spares_own_zombie zombieChain kill_ok 5 10 [20, 30] (by decide)⟩

/-- C10 counterexample: with unique pids, zombie 20 a child of 10 and zombie
30 a child of 20, `--pz` on target 10 sends SIGKILL to pid 20, which is one of
the defunct descendants of 10. -/
theorem kill_parents_signals_a_zombie :
    UniquePids zombieChain ∧
    get_defunct_descendants zombieChain 5 10 = some [20, 30] ∧
    kill_parents_of_zombies zombieChain kill_ok 5 10 =
      some [(10, Signal.SIGKILL), (20, Signal.SIGKILL)] ∧
    (handle_prct_command zombieChain kill_ok 5 ["1", "10", "--pz"]).map
      (fun o => o.signals) = some [(10, Signal.SIGKILL), (20, Signal.SIGKILL)] := by
  refine ⟨?_, by decide, by decide, by decide⟩
  unfold UniquePids zombieChain
  decide

/-! ## The command after its checks -/

theorem handle_prct_command_accepted (snap : Snapshot) (kill : Int → Signal → Int)
    (fuel : Nat) (root_pid_str process_id_str option : String)
    (h : Accepted snap root_pid_str process_id_str) :
    handle_prct_command snap kill fuel [root_pid_str, process_id_str, option] =
      dispatch snap kill fuel (pid_of root_pid_str) (pid_of process_id_str) option := by
  obtain ⟨hr, hp, hre, hpe⟩ := h
  unfold pid_of at hre hpe ⊢
  unfold handle_prct_command
  simp only [hr, hp, ne_eq, not_true_eq_false, or_self, if_false]
  rw [hre, hpe]
  simp

theorem scenario1_accepts : Accepted scenario1 "1" "10" := by
  unfold Accepted pid_of
  decide

theorem kill_each_eq (kill : Int → Signal → Int) (sig : Signal) :
    ∀ (l : List Int) (sent : List (Int × Signal)),
      kill_each kill sig l sent = sent ++ l.map (fun p => (p, sig)) := by
  intro l
  induction l with
  | nil => intro sent; simp [kill_each]
  | cons p rest ih =>
    intro sent
    unfold kill_each
    simp only
    rw [ih]
    simp

theorem kill_parents_loop_oracle (snap : Snapshot) (k1 k2 : Int → Signal → Int) :
    ∀ (zs : List Int) (sent : List (Int × Signal)),
      kill_parents_loop snap k1 zs sent = kill_parents_loop snap k2 zs sent := by
  intro zs
  induction zs with
  | nil => intro sent; simp [kill_parents_loop]
  | cons z rest ih =>
    intro sent
    unfold kill_parents_loop
    cases get_process_info snap z with
    | none => exact ih sent
    | some r => exact ih _

theorem dispatch_oracle (snap : Snapshot) (k1 k2 : Int → Signal → Int) (fuel : Nat)
    (root_pid process_id : Int) (option : String) :
    dispatch snap k1 fuel root_pid process_id option =
      dispatch snap k2 fuel root_pid process_id option := by
  unfold dispatch kill_parents_of_zombies
  simp only [kill_each_eq, kill_parents_loop_oracle snap k1 k2]

theorem dispatch_root (snap : Snapshot) (kill : Int → Signal → Int) (fuel : Nat)
    (r1 r2 process_id : Int) (option : String) (hv : option ≠ "-rp") :
    dispatch snap kill fuel r1 process_id option =
      dispatch snap kill fuel r2 process_id option := by
  unfold dispatch
  simp only [if_neg hv]

theorem dispatch_bulk (snap : Snapshot) (kill : Int → Signal → Int) (fuel : Nat)
    (root_pid process_id : Int) (v : String) (sig : Signal) (hv : (v, sig) ∈ bulk_verbs) :
    dispatch snap kill fuel root_pid process_id v =
      (get_descendants snap fuel process_id).map (fun ds =>
        { stdout := [completion_message v process_id], stderr := [],
          signals := ds.map (fun p => (p, sig)) }) := by
  simp only [bulk_verbs, List.mem_cons, Prod.mk.injEq, List.mem_singleton, List.not_mem_nil,
    or_false] at hv
  rcases hv with ⟨rfl, rfl⟩ | ⟨rfl, rfl⟩ | ⟨rfl, rfl⟩ <;>
    simp [dispatch, completion_message, kill_each_eq]

theorem dispatch_rp (snap : Snapshot) (kill : Int → Signal → Int) (fuel : Nat)
    (root_pid process_id : Int) :
    dispatch snap kill fuel root_pid process_id "-rp" =
      some { stdout := ["Root process " ++ toString root_pid ++ " has been killed"],
             stderr := [], signals := [(root_pid, Signal.SIGKILL)] } := by
  simp [dispatch]

theorem dispatch_invalid (snap : Snapshot) (kill : Int → Signal → Int) (fuel : Nat)
    (root_pid process_id : Int) (v : String) (hv : v ∉ recognized_verbs) :
    dispatch snap kill fuel root_pid process_id v =
      some (printed ["Invalid option: " ++ v]) := by
  simp only [recognized_verbs, List.mem_cons, List.mem_singleton, List.not_mem_nil, or_false,
    not_or] at hv
  obtain ⟨h1, h2, h3, h4, h5, h6, h7, h8, h9, h10, h11, h12, h13⟩ := hv
  unfold dispatch
  simp only [if_neg h1, if_neg h2, if_neg h3, if_neg h4, if_neg h5, if_neg h6, if_neg h7,
    if_neg h8, if_neg h9, if_neg h10, if_neg h11, if_neg h12, if_neg h13]

theorem dispatch_query_signals (snap : Snapshot) (kill : Int → Signal → Int) (fuel : Nat)
    (root_pid process_id : Int) (v : String) (hv : v ∉ signalling_verbs) (o : Outcome)
    (ho : dispatch snap kill fuel root_pid process_id v = some o) :
    o.signals = [] ∧ o.stderr = [] := by
  simp only [signalling_verbs, List.mem_cons, List.mem_singleton, List.not_mem_nil, or_false,
    not_or] at hv
  obtain ⟨h1, h2, h3, h4, h5⟩ := hv
  unfold dispatch at ho
  simp only [if_neg h1, if_neg h2, if_neg h3, if_neg h4, if_neg h5] at ho
  split_ifs at ho <;>
    first
    | (injection ho with ho; subst ho; exact ⟨rfl, rfl⟩)
    | (obtain ⟨x, _, hx⟩ := Option.map_eq_some'.1 ho; subst hx; exact ⟨rfl, rfl⟩)

theorem dispatch_list (snap : Snapshot) (kill : Int → Signal → Int) (fuel : Nat)
    (root_pid process_id : Int) (v empty : String) (query : Option (List Int))
    (hv : (v, empty, query) ∈ list_verbs snap fuel process_id) :
    dispatch snap kill fuel root_pid process_id v =
      query.map (fun pids => printed (print_pids empty pids)) := by
  simp only [list_verbs, List.mem_cons, Prod.mk.injEq, List.mem_singleton, List.not_mem_nil,
    or_false] at hv
  rcases hv with h | h | h | h | h | h <;>
    (obtain ⟨hverb, hempty, hquery⟩ := h
     subst hverb hempty hquery
     simp [dispatch])

theorem get_descendants_sublist (snap : Snapshot) (fuel : Nat) (root : Int) (ds : List Int)
    (h : get_descendants snap fuel root = some ds) :
    List.Sublist ds (snap.map (fun r => r.pid)) := by
  have hall : ∀ r ∈ snap, r.pid ≠ root → is_ancestor snap fuel root r.pid ≠ none := by
    intro r hr hne hnone
    have := (get_descendants_eq_none_iff snap fuel root).2 ⟨r, hr, hne, hnone⟩
    rw [this] at h
    cases h
  have heq := get_descendants_loop_some snap fuel root snap [] hall
  unfold get_descendants get_all_processes at h
  rw [heq] at h
  injection h with h
  subst h
  rw [List.nil_append]
  exact List.Sublist.map _ (List.filter_sublist _)

theorem get_descendants_nodup (snap : Snapshot) (hu : UniquePids snap) (fuel : Nat)
    (root : Int) (ds : List Int) (h : get_descendants snap fuel root = some ds) :
    ds.Nodup :=
  List.Nodup.sublist (get_descendants_sublist snap fuel root ds h) hu

/-! ## C11: the bulk verbs -/

/-- C11: when both pid texts are accepted (they pass the integer check and
both pids exist), each bulk verb `-sk`, `-st`, `-dt` returns exactly when
`get_descendants target` does (as it does without a cycle and with fuel for
one loop test per record and one more), and its sends are then its signal
(SIGKILL, SIGSTOP, SIGCONT) to the pids of `get_descendants target`, one send
per pid in order and nothing else: no send goes to the target, and with unique
pids no pid is signalled twice. -/
theorem bulk_verb_signals_descendants (snap : Snapshot) (kill : Int → Signal → Int)
    (fuel : Nat) (root_pid_str process_id_str v : String) (sig : Signal)
    (h : Accepted snap root_pid_str process_id_str) (hv : (v, sig) ∈ bulk_verbs) :
    (handle_prct_command snap kill fuel [root_pid_str, process_id_str, v] = none ↔
      get_descendants snap fuel (pid_of process_id_str) = none) ∧
    (NoCycle snap ∧ snap.length + 1 ≤ fuel →
      ∃ o, handle_prct_command snap kill fuel [root_pid_str, process_id_str, v] = some o) ∧
    (∀ ds, get_descendants snap fuel (pid_of process_id_str) = some ds →
      ∃ o, handle_prct_command snap kill fuel [root_pid_str, process_id_str, v] = some o ∧
        o.signals = ds.map (fun p => (p, sig)) ∧
        (∀ s ∈ o.signals, s.1 ≠ pid_of process_id_str) ∧
        (UniquePids snap → o.signals.Nodup)) := by
  rw [handle_prct_command_accepted snap kill fuel _ _ _ h, dispatch_bulk snap kill fuel _ _ v sig hv]
  refine ⟨by simp, ?_, ?_⟩
  · rintro ⟨hac, hf⟩
    obtain ⟨ds, hds⟩ := get_descendants_returns snap hac fuel hf (pid_of process_id_str)
    rw [hds]
    exact ⟨_, rfl⟩
  · intro ds hds
    rw [hds]
    refine ⟨_, rfl, rfl, ?_, ?_⟩
    · intro s hs
      simp only [List.mem_map] at hs
      obtain ⟨p, hp, rfl⟩ := hs
      exact ((mem_get_descendants snap fuel _ ds hds p).1 hp).2.1
    · intro hu
      refine List.Nodup.map ?_ (get_descendants_nodup snap hu fuel _ ds hds)
      intro a b hab
      exact (Prod.mk.inj hab).1

/-- C11 witness: `-sk` on target 10 of the Scenario 1 tree. -/
theorem bulk_verb_signals_descendants_witness :
    handle_prct_command scenario1 kill_ok 6 ["1", "10", "-sk"] =
      some { stdout := ["All descendants of 10 have been killed"], stderr := [],
             signals := [(20, Signal.SIGKILL), (21, Signal.SIGKILL), (30, Signal.SIGKILL)] } ∧
    ((handle_prct_command scenario1 kill_ok 6 ["1", "10", "-sk"] = none ↔
      get_descendants scenario1 6 (pid_of "10") = none) ∧
    (NoCycle scenario1 ∧ scenario1.length + 1 ≤ 6 →
      ∃ o, handle_prct_command scenario1 kill_ok 6 ["1", "10", "-sk"] = some o) ∧
    (∀ ds, get_descendants scenario1 6 (pid_of "10") = some ds →
      ∃ o, handle_prct_command scenario1 kill_ok 6 ["1", "10", "-sk"] = some o ∧
        o.signals = ds.map (fun p => (p, Signal.SIGKILL)) ∧
        (∀ s ∈ o.signals, s.1 ≠ pid_of "10") ∧
        (UniquePids scenario1 → o.signals.Nodup))) :=
  ⟨by decide, bulk_verb_signals_descendants scenario1 kill_ok 6 "1" "10" "-sk" Signal.SIGKILL
    scenario1_accepts (by decide)⟩

/-! ## C12: send results are ignored -/

/-- C12: when both pid texts are accepted, for each of the verbs `-sk`, `-st`,
`-dt` and `--pz` the whole outcome (text and the sequence of attempted sends)
is the same whatever return codes the sends give; the command returns without
a cycle and with fuel for one loop test per record and one more; and whenever
it returns, its only output is the verb's completion line, with one send
attempted for every pid of `get_descendants target` (bulk verbs) or for every
pid of `get_defunct_descendants target` (`--pz`). -/
theorem completion_ignores_send_results (snap : Snapshot) (kill : Int → Signal → Int)
    (fuel : Nat) (root_pid_str process_id_str v : String)
    (h : Accepted snap root_pid_str process_id_str)
    (hv : v = "-sk" ∨ v = "-st" ∨ v = "-dt" ∨ v = "--pz") :
    (∀ other : Int → Signal → Int,
      handle_prct_command snap other fuel [root_pid_str, process_id_str, v] =
        handle_prct_command snap kill fuel [root_pid_str, process_id_str, v]) ∧
    (NoCycle snap ∧ snap.length + 1 ≤ fuel →
      ∃ o, handle_prct_command snap kill fuel [root_pid_str, process_id_str, v] = some o) ∧
    (∀ o, handle_prct_command snap kill fuel [root_pid_str, process_id_str, v] = some o →
      o.stdout = [completion_message v (pid_of process_id_str)] ∧ o.stderr = [] ∧
      (v ≠ "--pz" → ∃ ds, get_descendants snap fuel (pid_of process_id_str) = some ds ∧
        o.signals.map Prod.fst = ds) ∧
      (v = "--pz" → ∃ zs, get_defunct_descendants snap fuel (pid_of process_id_str) = some zs ∧
        o.signals.length = zs.length)) := by
  refine ⟨?_, ?_, ?_⟩
  · intro other
    rw [handle_prct_command_accepted snap other fuel _ _ _ h,
      handle_prct_command_accepted snap kill fuel _ _ _ h]
    exact dispatch_oracle snap other kill fuel _ _ v
  · rintro ⟨hac, hf⟩
    rw [handle_prct_command_accepted snap kill fuel _ _ _ h]
    obtain ⟨ds, hds⟩ := get_descendants_returns snap hac fuel hf (pid_of process_id_str)
    rcases hv with rfl | rfl | rfl | rfl
    · rw [dispatch_bulk snap kill fuel _ _ "-sk" Signal.SIGKILL (by decide), hds]
      exact ⟨_, rfl⟩
    · rw [dispatch_bulk snap kill fuel _ _ "-st" Signal.SIGSTOP (by decide), hds]
      exact ⟨_, rfl⟩
    · rw [dispatch_bulk snap kill fuel _ _ "-dt" Signal.SIGCONT (by decide), hds]
      exact ⟨_, rfl⟩
    · have hzs : get_defunct_descendants snap fuel (pid_of process_id_str) =
          some (ds.filter (is_defunct snap)) := by
        rw [get_defunct_descendants_eq, hds]; rfl
      obtain ⟨sent, hsent, _⟩ := kill_parents_of_zombies_sends snap kill fuel _ _ hzs
      rw [dispatch_pz, hsent]
      exact ⟨_, rfl⟩
  · intro o ho
    rw [handle_prct_command_accepted snap kill fuel _ _ _ h] at ho
    have bulk : ∀ sig, (v, sig) ∈ bulk_verbs → v ≠ "--pz" →
        o.stdout = [completion_message v (pid_of process_id_str)] ∧ o.stderr = [] ∧
        (v ≠ "--pz" → ∃ ds, get_descendants snap fuel (pid_of process_id_str) = some ds ∧
          o.signals.map Prod.fst = ds) ∧
        (v = "--pz" → ∃ zs,
          get_defunct_descendants snap fuel (pid_of process_id_str) = some zs ∧
          o.signals.length = zs.length) := by
      intro sig hsig hne
      rw [dispatch_bulk snap kill fuel _ _ v sig hsig] at ho
      obtain ⟨ds, hds, hx⟩ := Option.map_eq_some'.1 ho
      subst hx
      refine ⟨rfl, rfl, fun _ => ⟨ds, hds, ?_⟩, fun hpz => absurd hpz hne⟩
      simp [List.map_map, Function.comp_def]
    rcases hv with rfl | rfl | rfl | rfl
    · exact bulk Signal.SIGKILL (by decide) (by decide)
    · exact bulk Signal.SIGSTOP (by decide) (by decide)
    · exact bulk Signal.SIGCONT (by decide) (by decide)
    · rw [dispatch_pz] at ho
      obtain ⟨sent, hsent, hx⟩ := Option.map_eq_some'.1 ho
      subst hx
      refine ⟨by simp [completion_message], rfl, fun hne => absurd rfl hne, fun _ => ?_⟩
      cases hzs : get_defunct_descendants snap fuel (pid_of process_id_str) with
      | none =>
        unfold kill_parents_of_zombies at hsent
        rw [hzs] at hsent
        cases hsent
      | some zs =>
        obtain ⟨sent2, hsent2, hall⟩ := kill_parents_of_zombies_sends snap kill fuel _ zs hzs
        rw [hsent2] at hsent
        injection hsent with hsent
        subst hsent
        exact ⟨zs, rfl, hall.length_eq.symm⟩

/-- C12 witness: `-sk` on target 10 of the Scenario 1 tree with a sender
whose every send fails: all three sends are attempted and the completion line
is printed. -/
theorem completion_ignores_send_results_witness :
    handle_prct_command scenario1 kill_fail 6 ["1", "10", "-sk"] =
      some { stdout := ["All descendants of 10 have been killed"], stderr := [],
             signals := [(20, Signal.SIGKILL), (21, Signal.SIGKILL), (30, Signal.SIGKILL)] } ∧
    ((∀ other : Int → Signal → Int,
      handle_prct_command scenario1 other 6 ["1", "10", "-sk"] =
        handle_prct_command scenario1 kill_fail 6 ["1", "10", "-sk"]) ∧
    (NoCycle scenario1 ∧ scenario1.length + 1 ≤ 6 →
      ∃ o, handle_prct_command scenario1 kill_fail 6 ["1", "10", "-sk"] = some o) ∧
    (∀ o, handle_prct_command scenario1 kill_fail 6 ["1", "10", "-sk"] = some o →
      o.stdout = [completion_message "-sk" (pid_of "10")] ∧ o.stderr = [] ∧
      ("-sk" ≠ "--pz" → ∃ ds, get_descendants scenario1 6 (pid_of "10") = some ds ∧
        o.signals.map Prod.fst = ds) ∧
      ("-sk" = "--pz" → ∃ zs, get_defunct_descendants scenario1 6 (pid_of "10") = some zs ∧
        o.signals.length = zs.length))) :=
  ⟨by decide, completion_ignores_send_results scenario1 kill_fail 6 "1" "10" "-sk"
    scenario1_accepts (Or.inl rfl)⟩

/-! ## C13: the integer check -/

/-- C13 (evaluation at the failing input): `strtol` converts nothing of the
empty text and leaves its end pointer on the terminating NUL, so the integer
check accepts an empty pid text as pid 0: the command goes on to the existence
checks and reports pid 0 as missing instead of printing the validation
message.  A text with trailing non-digits is rejected as claimed. -/
theorem empty_pid_text_passes_integer_check :
    strtol "".toList = (0, []) ∧
    handle_prct_command scenario1 kill_ok 6 ["", "10", "-sk"] =
      some (failed "Error: root process with PID 0 does not exist") ∧
    handle_prct_command scenario1 kill_ok 6 ["1", "", "-sk"] =
      some (failed "Error: process with PID 0 does not exist") ∧
    handle_prct_command scenario1 kill_ok 6 ["12x", "10", "-sk"] =
      some (failed "Error: root_pid and process_id must be valid integers.") := by
  refine ⟨by decide, by decide, by decide, by decide⟩

/-! ## C14: the query verbs send nothing -/

theorem dispatch_returns (snap : Snapshot) (hac : NoCycle snap) (kill : Int → Signal → Int)
    (fuel : Nat) (hf : snap.length + 1 ≤ fuel) (root_pid process_id : Int) (v : String) :
    ∃ o, dispatch snap kill fuel root_pid process_id v = some o := by
  obtain ⟨ds, hds⟩ := get_descendants_returns snap hac fuel hf process_id
  have hzs : get_defunct_descendants snap fuel process_id =
      some (ds.filter (is_defunct snap)) := by
    rw [get_defunct_descendants_eq, hds]; rfl
  obtain ⟨nd, hnd, _⟩ := mem_get_non_direct_descendants snap fuel process_id ds hds
  obtain ⟨sent, hsent, _⟩ := kill_parents_of_zombies_sends snap kill fuel process_id _ hzs
  by_cases hrec : v ∈ recognized_verbs
  · simp only [recognized_verbs, List.mem_cons, List.mem_singleton, List.not_mem_nil,
      or_false] at hrec
    rcases hrec with rfl | rfl | rfl | rfl | rfl | rfl | rfl | rfl | rfl | rfl | rfl | rfl | rfl <;>
      simp [dispatch, hds, hzs, hnd, hsent]
  · exact ⟨_, dispatch_invalid snap kill fuel _ _ v hrec⟩

/-- C14: when both pid texts are accepted, every verb text other than the
five signalling verbs `--pz`, `-sk`, `-st`, `-dt`, `-rp` (so each of the query
verbs, and every unrecognized text) sends no signal and writes nothing to
standard error whenever the command returns, and the command returns without
a cycle and with fuel for one loop test per record and one more. -/
theorem query_verbs_send_no_signal (snap : Snapshot) (kill : Int → Signal → Int)
    (fuel : Nat) (root_pid_str process_id_str v : String)
    (h : Accepted snap root_pid_str process_id_str) (hv : v ∉ signalling_verbs) :
    (∀ o, handle_prct_command snap kill fuel [root_pid_str, process_id_str, v] = some o →
      o.signals = [] ∧ o.stderr = []) ∧
    (NoCycle snap ∧ snap.length + 1 ≤ fuel →
      ∃ o, handle_prct_command snap kill fuel [root_pid_str, process_id_str, v] = some o) := by
  rw [handle_prct_command_accepted snap kill fuel _ _ _ h]
  exact ⟨fun o ho => dispatch_query_signals snap kill fuel _ _ v hv o ho,
    fun hc => dispatch_returns snap hc.1 kill fuel hc.2 _ _ v⟩

/-- C14 witness: `-dc` on target 10 of the Scenario 1 tree prints the count 1
and sends nothing. -/
theorem query_verbs_send_no_signal_witness :
    handle_prct_command scenario1 kill_ok 6 ["1", "10", "-dc"] = some (printed ["1"]) ∧
    ((∀ o, handle_prct_command scenario1 kill_ok 6 ["1", "10", "-dc"] = some o →
      o.signals = [] ∧ o.stderr = []) ∧
    (NoCycle scenario1 ∧ scenario1.length + 1 ≤ 6 →
      ∃ o, handle_prct_command scenario1 kill_ok 6 ["1", "10", "-dc"] = some o)) :=
  ⟨by decide, query_verbs_send_no_signal scenario1 kill_ok 6 "1" "10" "-dc" scenario1_accepts
    (by decide)⟩

/-! ## C15: unrecognized verbs -/

/-- C15: when both pid texts are accepted, every verb text that is not
exactly one of the thirteen recognized tokens makes the command print the
single line `Invalid option: ` followed by that text, with nothing on
standard error and no signal sent. -/
theorem unrecognized_verb_is_invalid_option (snap : Snapshot) (kill : Int → Signal → Int)
    (fuel : Nat) (root_pid_str process_id_str v : String)
    (h : Accepted snap root_pid_str process_id_str) (hv : v ∉ recognized_verbs) :
    handle_prct_command snap kill fuel [root_pid_str, process_id_str, v] =
      some { stdout := ["Invalid option: " ++ v], stderr := [], signals := [] } := by
  rw [handle_prct_command_accepted snap kill fuel _ _ _ h,
    dispatch_invalid snap kill fuel _ _ v hv]
  rfl

/-- C15 witness: the token `-DC` differs from `-dc` by case only and is
rejected. -/
theorem unrecognized_verb_is_invalid_option_witness :
    handle_prct_command scenario1 kill_ok 6 ["1", "10", "-DC"] =
      some { stdout := ["Invalid option: " ++ "-DC"], stderr := [], signals := [] } :=
  unrecognized_verb_is_invalid_option scenario1 kill_ok 6 "1" "10" "-DC" scenario1_accepts
    (by decide)

/-! ## C16: the output of the list verbs -/

theorem digitChar_ne_N (n : Nat) (h : n < 10) : Nat.digitChar n ≠ 'N' := by
  interval_cases n <;> decide

theorem toDigitsCore_no_N : ∀ (f n : Nat) (acc : List Char), 'N' ∉ acc →
    'N' ∉ Nat.toDigitsCore 10 f n acc := by
  intro f
  induction f with
  | zero => intro n acc h; simpa [Nat.toDigitsCore] using h
  | succ k ih =>
    intro n acc h
    have hd : 'N' ∉ Nat.digitChar (n % 10) :: acc := by
      intro hmem
      rcases List.mem_cons.1 hmem with h1 | h1
      · exact digitChar_ne_N (n % 10) (Nat.mod_lt _ (by decide)) h1.symm
      · exact h h1
    unfold Nat.toDigitsCore
    simp only
    split
    · exact hd
    · exact ih _ _ hd

theorem nat_toString_no_N (n : Nat) : 'N' ∉ (toString n).data := by
  show 'N' ∉ (Nat.repr n).data
  unfold Nat.repr Nat.toDigits
  simp only [List.asString]
  exact toDigitsCore_no_N _ _ [] (List.not_mem_nil _)

theorem int_toString_no_N (p : Int) : 'N' ∉ (toString p).data := by
  cases p with
  | ofNat m => exact nat_toString_no_N m
  | negSucc m =>
    show 'N' ∉ ("-" ++ toString (Nat.succ m)).data
    rw [String.data_append]
    intro hmem
    rcases List.mem_append.1 hmem with h1 | h1
    · revert h1; decide
    · exact nat_toString_no_N _ h1

theorem list_verbs_empty_has_N (snap : Snapshot) (fuel : Nat) (target : Int)
    (v empty : String) (query : Option (List Int))
    (hv : (v, empty, query) ∈ list_verbs snap fuel target) : 'N' ∈ empty.data := by
  simp only [list_verbs, List.mem_cons, Prod.mk.injEq, List.mem_singleton, List.not_mem_nil,
    or_false] at hv
  rcases hv with h | h | h | h | h | h <;>
    (rw [h.2.1]
     decide)

/-- C16: when both pid texts are accepted, for each list verb (`-ds`, `-id`,
`-lg`, `-lz`, `-df`, `-gc`, with its empty-result line and resolver query as
tabulated in `list_verbs`) the command returns exactly when the query does (as
it does without a cycle and with fuel for one loop test per record and one
more), writes nothing to standard error and sends no signal; when the query
returns no pid the output is exactly the empty-result line, and otherwise it
is exactly the pids of the result in decimal, one per line, none of which is
the empty-result line. -/
theorem list_verb_output (snap : Snapshot) (kill : Int → Signal → Int) (fuel : Nat)
    (root_pid_str process_id_str v empty : String) (query : Option (List Int))
    (h : Accepted snap root_pid_str process_id_str)
    (hv : (v, empty, query) ∈ list_verbs snap fuel (pid_of process_id_str)) :
    (handle_prct_command snap kill fuel [root_pid_str, process_id_str, v] = none ↔
      query = none) ∧
    (NoCycle snap ∧ snap.length + 1 ≤ fuel →
      ∃ o, handle_prct_command snap kill fuel [root_pid_str, process_id_str, v] = some o) ∧
    (∀ pids, query = some pids →
      ∃ o, handle_prct_command snap kill fuel [root_pid_str, process_id_str, v] = some o ∧
        o.stderr = [] ∧ o.signals = [] ∧
        (pids = [] → o.stdout = [empty]) ∧
        (pids ≠ [] → o.stdout = pids.map toString ∧ empty ∉ o.stdout)) := by
  have hN := list_verbs_empty_has_N snap fuel _ v empty query hv
  rw [handle_prct_command_accepted snap kill fuel _ _ _ h]
  refine ⟨?_, fun hc => dispatch_returns snap hc.1 kill fuel hc.2 _ _ v, ?_⟩
  · rw [dispatch_list snap kill fuel _ _ v empty query hv]
    simp
  · intro pids hq
    rw [dispatch_list snap kill fuel _ _ v empty query hv, hq]
    refine ⟨_, rfl, rfl, rfl, ?_, ?_⟩
    · intro hp
      subst hp
      rfl
    · intro hp
      have hlen : pids.length ≠ 0 := fun h0 => hp (List.length_eq_zero.1 h0)
      have hout : (printed (print_pids empty pids)).stdout = pids.map toString := by
        unfold printed print_pids
        simp only [if_neg hlen]
      rw [hout]
      refine ⟨rfl, ?_⟩
      intro hmem
      obtain ⟨p, _, hp2⟩ := List.mem_map.1 hmem
      apply int_toString_no_N p
      rw [hp2]
      exact hN

/-- C16 witness: `-id` on target 10 of the Scenario 1 tree prints 20 and 21,
and `-gc` on target 20 prints the empty-result line. -/
theorem list_verb_output_witness :
    handle_prct_command scenario1 kill_ok 6 ["1", "10", "-id"] = some (printed ["20", "21"]) ∧
    handle_prct_command scenario1 kill_ok 6 ["1", "20", "-gc"] =
      some (printed ["No grandchildren"]) ∧
    ((handle_prct_command scenario1 kill_ok 6 ["1", "10", "-id"] = none ↔
      some (get_immediate_descendants scenario1 (pid_of "10")) = none) ∧
    (NoCycle scenario1 ∧ scenario1.length + 1 ≤ 6 →
      ∃ o, handle_prct_command scenario1 kill_ok 6 ["1", "10", "-id"] = some o) ∧
    (∀ pids, some (get_immediate_descendants scenario1 (pid_of "10")) = some pids →
      ∃ o, handle_prct_command scenario1 kill_ok 6 ["1", "10", "-id"] = some o ∧
        o.stderr = [] ∧ o.signals = [] ∧
        (pids = [] → o.stdout = ["No direct descendants"]) ∧
        (pids ≠ [] → o.stdout = pids.map toString ∧
          "No direct descendants" ∉ o.stdout))) :=
  ⟨by decide, by decide,
    list_verb_output scenario1 kill_ok 6 "1" "10" "-id" "No direct descendants"
      (some (get_immediate_descendants scenario1 (pid_of "10"))) scenario1_accepts
      (by simp [list_verbs])⟩

/-! ## C17: the root pid matters to `-rp` only -/

theorem handle_prct_command_root_ok (snap : Snapshot) (kill : Int → Signal → Int)
    (fuel : Nat) (root_pid_str process_id_str option : String)
    (hr : (strtol root_pid_str.toList).2 = [])
    (he : process_exists snap (pid_of root_pid_str) = true) :
    handle_prct_command snap kill fuel [root_pid_str, process_id_str, option] =
      if (strtol process_id_str.toList).2 ≠ [] then
        some (failed "Error: root_pid and process_id must be valid integers.")
      else if ¬ process_exists snap (pid_of process_id_str) then
        some (failed ("Error: process with PID " ++ toString (pid_of process_id_str)
          ++ " does not exist"))
      else dispatch snap kill fuel (pid_of root_pid_str) (pid_of process_id_str) option := by
  unfold pid_of at he ⊢
  unfold handle_prct_command
  simp only [hr, ne_eq, not_true_eq_false, false_or]
  rw [he]
  simp

/-- C17: for two root pid texts that both pass the integer check and name
existing pids, and for every target text and every verb text other than
`-rp`, the command gives the same outcome (the same text and the same signals,
or no return in both cases) with either root; and when the target is accepted
too, `-rp` prints its completion line and sends exactly one signal, SIGKILL to
the root pid. -/
theorem root_pid_matters_to_kill_root_only (snap : Snapshot) (kill : Int → Signal → Int)
    (fuel : Nat) (r1 r2 process_id_str v : String)
    (hr1 : (strtol r1.toList).2 = []) (he1 : process_exists snap (pid_of r1) = true)
    (hr2 : (strtol r2.toList).2 = []) (he2 : process_exists snap (pid_of r2) = true) :
    (v ≠ "-rp" →
      handle_prct_command snap kill fuel [r1, process_id_str, v] =
        handle_prct_command snap kill fuel [r2, process_id_str, v]) ∧
    (Accepted snap r1 process_id_str →
      handle_prct_command snap kill fuel [r1, process_id_str, "-rp"] =
        some { stdout := ["Root process " ++ toString (pid_of r1) ++ " has been killed"],
               stderr := [], signals := [(pid_of r1, Signal.SIGKILL)] }) := by
  constructor
  · intro hv
    rw [handle_prct_command_root_ok snap kill fuel r1 _ _ hr1 he1,
      handle_prct_command_root_ok snap kill fuel r2 _ _ hr2 he2,
      dispatch_root snap kill fuel (pid_of r1) (pid_of r2) _ v hv]
  · intro h
    rw [handle_prct_command_accepted snap kill fuel _ _ _ h, dispatch_rp]

/-- C17 witness: roots 1 and 10 of the Scenario 1 tree with target 20. -/
theorem root_pid_matters_to_kill_root_only_witness :
    handle_prct_command scenario1 kill_ok 6 ["10", "20", "-rp"] =
      some { stdout := ["Root process 10 has been killed"], stderr := [],
             signals := [(10, Signal.SIGKILL)] } ∧
    (("-sk" ≠ "-rp" →
      handle_prct_command scenario1 kill_ok 6 ["1", "20", "-sk"] =
        handle_prct_command scenario1 kill_ok 6 ["10", "20", "-sk"]) ∧
    (Accepted scenario1 "1" "20" →
      handle_prct_command scenario1 kill_ok 6 ["1", "20", "-rp"] =
        some { stdout := ["Root process " ++ toString (pid_of "1") ++ " has been killed"],
               stderr := [], signals := [(pid_of "1", Signal.SIGKILL)] })) :=
  ⟨by decide, root_pid_matters_to_kill_root_only scenario1 kill_ok 6 "1" "10" "20" "-sk"
    (by decide) (by decide) (by decide) (by decide)⟩

/-! ## C18: a cycle of length two -/

theorem twoCycle_loops (a : Int) (h2 : a ≠ 2) (h3 : a ≠ 3) :
    ∀ fuel, is_ancestor_loop twoCycle a fuel 2 = none ∧
      is_ancestor_loop twoCycle a fuel 3 = none := by
  intro fuel
  induction fuel with
  | zero => exact ⟨rfl, rfl⟩
  | succ n ih =>
    have l2 : get_process_info twoCycle 2 = some ⟨2, 3, 'S'⟩ := by decide
    have l3 : get_process_info twoCycle 3 = some ⟨3, 2, 'S'⟩ := by decide
    constructor
    · unfold is_ancestor_loop
      simp [l2, Ne.symm h3, ih.2]
    · unfold is_ancestor_loop
      simp [l3, Ne.symm h2, ih.1]

/-- C18 (evaluation at the failing input): on the table `2 -> 3 -> 2` the
walk of `is_ancestor 5 2` alternates between pids 2 and 3 and no amount of
fuel makes it return, and neither does `get_descendants 5`; the guard of the
loop only stops a record that is its own parent, as in the one-record table
`5 -> 5`, where `is_ancestor 7 5` returns false. -/
theorem is_ancestor_loops_on_two_cycle :
    (∀ fuel, is_ancestor twoCycle fuel 5 2 = none) ∧
    (∀ fuel, get_descendants twoCycle fuel 5 = none) ∧
    (∀ fuel, is_ancestor selfParent (fuel + 1) 7 5 = some false) := by
  have hloop : ∀ fuel, is_ancestor twoCycle fuel 5 2 = none := by
    intro fuel
    unfold is_ancestor
    rw [if_neg (by decide)]
    exact (twoCycle_loops 5 (by decide) (by decide) fuel).1
  refine ⟨hloop, ?_, ?_⟩
  · intro fuel
    rw [get_descendants_eq_none_iff]
    exact ⟨⟨2, 3, 'S'⟩, by simp [twoCycle], by decide, hloop fuel⟩
  · intro fuel
    simp [is_ancestor, is_ancestor_loop, selfParent, get_process_info]

/-! ## C19: broken chains, self-parents and the trivial case -/

theorem walk_false_of_reaches (snap : Snapshot) (a d c : Int)
    (hw : Relation.ReflTransGen (walkStep snap a) d c)
    (hc : ∃ n, is_ancestor_loop snap a n c = some false) :
    ∃ n, is_ancestor_loop snap a n d = some false := by
  induction hw using Relation.ReflTransGen.head_induction_on with
  | refl => exact hc
  | head hstep _ ih =>
    obtain ⟨n, hn⟩ := ih
    obtain ⟨h1, r, hr, hra, hrself, hnext⟩ := hstep
    refine ⟨n + 1, ?_⟩
    unfold is_ancestor_loop
    rw [if_pos h1, hr]
    simp only
    rw [if_neg hra, if_neg hrself, ← hnext]
    exact hn

theorem walk_current_ne_ancestor (snap : Snapshot) (a d c : Int) (hne : a ≠ d)
    (hw : Relation.ReflTransGen (walkStep snap a) d c) : c ≠ a := by
  induction hw with
  | refl => exact Ne.symm hne
  | tail _ hstep _ =>
    obtain ⟨_, r, _, hra, _, hnext⟩ := hstep
    rw [hnext]
    exact hra

theorem is_ancestor_false_from (snap : Snapshot) (a d : Int) (hne : a ≠ d)
    (h : ∃ n, is_ancestor_loop snap a n d = some false) :
    ∃ n, ∀ fuel, n ≤ fuel → is_ancestor snap fuel a d = some false := by
  obtain ⟨n, hn⟩ := h
  refine ⟨n, ?_⟩
  intro fuel hf
  unfold is_ancestor
  rw [if_neg hne]
  have := is_ancestor_loop_mono snap a n d false hn (fuel - n)
  rwa [Nat.add_sub_cancel' hf] at this

/-- C19: for `a ≠ d`, when the walk of `is_ancestor a d` reaches a current
pid `c` above 1 (by hops none of whose parents equalled `a`, was its own
record's pid, or left a pid of 1 or less), then with enough fuel
`is_ancestor a d` returns false if `c` cannot be resolved, and also if `c`
resolves to a record whose parent pid equals its own pid; and
`is_ancestor a a` returns true for every `a`, every snapshot and every
fuel. -/
theorem is_ancestor_broken_chain (snap : Snapshot) (a d c : Int) (hne : a ≠ d)
    (hw : Relation.ReflTransGen (walkStep snap a) d c) (hc : 1 < c) :
    (get_process_info snap c = none →
      ∃ n, ∀ fuel, n ≤ fuel → is_ancestor snap fuel a d = some false) ∧
    (∀ r, get_process_info snap c = some r → r.ppid = r.pid →
      ∃ n, ∀ fuel, n ≤ fuel → is_ancestor snap fuel a d = some false) ∧
    (∀ (table : Snapshot) (x : Int) (fuel : Nat), is_ancestor table fuel x x = some true) := by
  refine ⟨?_, ?_, ?_⟩
  · intro hnone
    apply is_ancestor_false_from snap a d hne
    apply walk_false_of_reaches snap a d c hw
    refine ⟨1, ?_⟩
    unfold is_ancestor_loop
    rw [if_pos hc, hnone]
  · intro r hr hself
    apply is_ancestor_false_from snap a d hne
    apply walk_false_of_reaches snap a d c hw
    refine ⟨1, ?_⟩
    have hca := walk_current_ne_ancestor snap a d c hne hw
    have hpid := (get_process_info_some hr).2
    have hra : r.ppid ≠ a := by rw [hself, hpid]; exact hca
    unfold is_ancestor_loop
    rw [if_pos hc, hr]
    simp only
    rw [if_neg hra, if_pos hself]
  · intro table x fuel
    unfold is_ancestor
    rw [if_pos rfl]

/-- C19 witness: in the table `30 -> 20 -> 15` without a record for 15, the
walk of `is_ancestor 10 30` reaches the unresolvable pid 15. -/
theorem is_ancestor_broken_chain_witness :
    (∀ fuel, is_ancestor brokenChain (fuel + 3) 10 30 = some false) ∧
    ((get_process_info brokenChain 15 = none →
      ∃ n, ∀ fuel, n ≤ fuel → is_ancestor brokenChain fuel 10 30 = some false) ∧
    (∀ r, get_process_info brokenChain 15 = some r → r.ppid = r.pid →
      ∃ n, ∀ fuel, n ≤ fuel → is_ancestor brokenChain fuel 10 30 = some false) ∧
    (∀ (table : Snapshot) (x : Int) (fuel : Nat),
      is_ancestor table fuel x x = some true)) :=
  ⟨fun fuel => by
      simp [is_ancestor, is_ancestor_loop, brokenChain, get_process_info],
    is_ancestor_broken_chain brokenChain 10 30 15 (by decide)
      (Relation.ReflTransGen.tail
        (Relation.ReflTransGen.tail Relation.ReflTransGen.refl
          ⟨by decide, ⟨30, 20, 'S'⟩, by decide, by decide, by decide, rfl⟩)
        ⟨by decide, ⟨20, 15, 'S'⟩, by decide, by decide, by decide, rfl⟩)
      (by decide)⟩

/-! ## C20: `--pz` stays within the subtree of the target -/

theorem descendant_parent_in_subtree (snap : Snapshot) (fuel : Nat) (target : Int)
    (ds : List Int) (h : get_descendants snap fuel target = some ds) (z : Int)
    (hz : z ∈ ds) (r : Process) (hr : get_process_info snap z = some r) :
    r.ppid = target ∨ r.ppid ∈ ds := by
  obtain ⟨_, hne, hanc⟩ := (mem_get_descendants snap fuel target ds h z).1 hz
  unfold is_ancestor at hanc
  rw [if_neg (Ne.symm hne)] at hanc
  cases fuel with
  | zero => simp [is_ancestor_loop] at hanc
  | succ n =>
    unfold is_ancestor_loop at hanc
    split at hanc
    · rw [hr] at hanc
      simp only at hanc
      split at hanc
      · rename_i hpa
        exact Or.inl hpa
      · rename_i hpa
        split at hanc
        · cases hanc
        · right
          have hup := is_ancestor_loop_mono snap target n r.ppid true hanc 1
          rw [mem_get_descendants snap (n + 1) target ds h]
          refine ⟨?_, hpa, ?_⟩
          · cases n with
            | zero => simp [is_ancestor_loop] at hanc
            | succ m =>
              unfold is_ancestor_loop at hanc
              split at hanc
              · split at hanc
                · cases hanc
                · rename_i q hq
                  obtain ⟨hqmem, hqpid⟩ := get_process_info_some hq
                  exact ⟨q, hqmem, hqpid⟩
              · cases hanc
          · unfold is_ancestor
            rw [if_neg (Ne.symm hpa)]
            exact hup
    · cases hanc

/-- C20: whenever `get_descendants target` returns `ds` and
`kill_parents_of_zombies target` returns its sends, every send is SIGKILL to a
pid that is `target` itself or a member of `ds`; both return without a cycle
and with fuel for one loop test per record and one more; and the target
itself can be signalled: in the table `1 <- 10 <- 20 <- 30` with 20 and 30
defunct, `--pz` on target 10 sends SIGKILL to 10. -/
theorem kill_parents_within_subtree (snap : Snapshot) (kill : Int → Signal → Int)
    (fuel : Nat) (target : Int) :
    (∀ ds sent, get_descendants snap fuel target = some ds →
      kill_parents_of_zombies snap kill fuel target = some sent →
      ∀ s ∈ sent, s.2 = Signal.SIGKILL ∧ (s.1 = target ∨ s.1 ∈ ds)) ∧
    (NoCycle snap ∧ snap.length + 1 ≤ fuel →
      ∃ ds sent, get_descendants snap fuel target = some ds ∧
        kill_parents_of_zombies snap kill fuel target = some sent) ∧
    (kill_parents_of_zombies zombieChain kill 5 10 =
      some [(10, Signal.SIGKILL), (20, Signal.SIGKILL)]) := by
  refine ⟨?_, ?_, rfl⟩
  · intro ds sent hds hsent s hs
    have hzs : get_defunct_descendants snap fuel target =
        some (ds.filter (is_defunct snap)) := by
      rw [get_defunct_descendants_eq, hds]; rfl
    obtain ⟨sent2, hsent2, hall⟩ := kill_parents_of_zombies_sends snap kill fuel target _ hzs
    rw [hsent2] at hsent
    injection hsent with hsent
    subst hsent
    obtain ⟨z, hz, r, hr, rfl⟩ := forall₂_mem_right hall s hs
    exact ⟨rfl, descendant_parent_in_subtree snap fuel target ds hds z
      (List.mem_filter.1 hz).1 r hr⟩
  · rintro ⟨hac, hf⟩
    obtain ⟨ds, hds⟩ := get_descendants_returns snap hac fuel hf target
    have hzs : get_defunct_descendants snap fuel target =
        some (ds.filter (is_defunct snap)) := by
      rw [get_defunct_descendants_eq, hds]; rfl
    obtain ⟨sent, hsent, _⟩ := kill_parents_of_zombies_sends snap kill fuel target _ hzs
    exact ⟨ds, sent, hds, hsent⟩

/-! ## C21: transitivity of the ancestry test -/

theorem is_ancestor_loop_trans (snap : Snapshot) (a b : Int) (f1 : Nat)
    (hab : is_ancestor_loop snap a f1 b = some true) :
    ∀ (f2 : Nat) (c : Int), c ≠ b → is_ancestor_loop snap b f2 c = some true →
      is_ancestor_loop snap a (f2 + f1) c = some true := by
  intro f2
  induction f2 with
  | zero => intro c _ h; simp [is_ancestor_loop] at h
  | succ n ih =>
    intro c hcb h
    rw [show n + 1 + f1 = (n + f1) + 1 by omega]
    unfold is_ancestor_loop at h ⊢
    split at h
    · rename_i hc
      rw [if_pos hc]
      split at h
      · cases h
      · rename_i r hr
        obtain ⟨_, hpid⟩ := get_process_info_some hr
        by_cases hra : r.ppid = a
        · rw [if_pos hra]
        · rw [if_neg hra]
          split at h
          · rename_i hrb
            have hself : r.ppid ≠ r.pid := by
              rw [hrb, hpid]; exact Ne.symm hcb
            rw [if_neg hself, hrb]
            have := is_ancestor_loop_mono snap a f1 b true hab n
            rwa [Nat.add_comm] at this
          · rename_i hrb
            split at h
            · cases h
            · rename_i hself
              rw [if_neg hself]
              exact ih r.ppid hrb h
    · cases h

/-- C21: for every snapshot and all pids `a`, `b`, `c`, when
`is_ancestor a b` returns true with fuel `f1` and `is_ancestor b c` returns
true with fuel `f2`, then `is_ancestor a c` returns true with every fuel of
at least `f1 + f2`, and with no fuel does it return false. -/
theorem is_ancestor_transitive (snap : Snapshot) (a b c : Int) (f1 f2 : Nat)
    (hab : is_ancestor snap f1 a b = some true)
    (hbc : is_ancestor snap f2 b c = some true) :
    (∀ fuel, f1 + f2 ≤ fuel → is_ancestor snap fuel a c = some true) ∧
    (∀ fuel, is_ancestor snap fuel a c ≠ some false) := by
  have key : ∀ fuel, f1 + f2 ≤ fuel → is_ancestor snap fuel a c = some true := by
    intro fuel hf
    by_cases hac : a = c
    · unfold is_ancestor
      rw [if_pos hac]
    · unfold is_ancestor at hab hbc ⊢
      rw [if_neg hac]
      by_cases hab2 : a = b
      · subst hab2
        by_cases hbc2 : a = c
        · exact absurd hbc2 hac
        · rw [if_neg hbc2] at hbc
          have := is_ancestor_loop_mono snap a f2 c true hbc (fuel - f2)
          rwa [Nat.add_sub_cancel' (by omega)] at this
      · rw [if_neg hab2] at hab
        by_cases hbc2 : b = c
        · subst hbc2
          have := is_ancestor_loop_mono snap a f1 b true hab (fuel - f1)
          rwa [Nat.add_sub_cancel' (by omega)] at this
        · rw [if_neg hbc2] at hbc
          have h1 := is_ancestor_loop_trans snap a b f1 hab f2 c (Ne.symm hbc2) hbc
          have := is_ancestor_loop_mono snap a (f2 + f1) c true h1 (fuel - (f2 + f1))
          rwa [Nat.add_sub_cancel' (by omega)] at this
  refine ⟨key, ?_⟩
  intro fuel hfalse
  have hbig := key (fuel + (f1 + f2)) (by omega)
  have hmono : is_ancestor snap (fuel + (f1 + f2)) a c = some false := by
    unfold is_ancestor at hfalse ⊢
    by_cases hac : a = c
    · rw [if_pos hac] at hfalse; cases hfalse
    · rw [if_neg hac] at hfalse ⊢
      exact is_ancestor_loop_mono snap a fuel c false hfalse (f1 + f2)
  rw [hbig] at hmono
  cases hmono

/-- C21 witness: in the Scenario 1 tree, 1 is an ancestor of 10 and 10 of 30,
hence 1 of 30. -/
theorem is_ancestor_transitive_witness :
    (∀ fuel, 2 + 3 ≤ fuel → is_ancestor scenario1 fuel 1 30 = some true) ∧
    (∀ fuel, is_ancestor scenario1 fuel 1 30 ≠ some false) :=
  is_ancestor_transitive scenario1 1 10 30 2 3 (by decide) (by decide)

/-! ## C22: no pid is returned twice -/

theorem filter_map_pid_nodup (snap : Snapshot) (hu : UniquePids snap)
    (keep : Process → Bool) : ((snap.filter keep).map (fun r => r.pid)).Nodup :=
  List.Nodup.sublist (List.Sublist.map _ (List.filter_sublist _)) hu

theorem get_immediate_descendants_nodup (snap : Snapshot) (hu : UniquePids snap)
    (parent : Int) : (get_immediate_descendants snap parent).Nodup := by
  rw [get_immediate_descendants_eq]
  exact filter_map_pid_nodup snap hu _

theorem get_siblings_nodup (snap : Snapshot) (hu : UniquePids snap) (process_id : Int) :
    (get_siblings snap process_id).Nodup := by
  unfold get_siblings get_all_processes
  cases get_process_info snap process_id with
  | none => exact List.nodup_nil
  | some ra =>
    simp only
    rw [foldl_push_if (fun r : Process => r.ppid = ra.ppid ∧ r.pid ≠ process_id)
      (fun r => r.pid), List.nil_append]
    exact filter_map_pid_nodup snap hu _

theorem pid_determines_parent (snap : Snapshot) (hu : UniquePids snap) (r q : Process)
    (hr : r ∈ snap) (hq : q ∈ snap) (h : r.pid = q.pid) : r = q := by
  have h1 := get_process_info_unique hu hr
  have h2 := get_process_info_unique hu hq
  rw [h, h2] at h1
  injection h1 with h1
  exact h1.symm

theorem get_grandchildren_nodup (snap : Snapshot) (hu : UniquePids snap) (root : Int) :
    (get_grandchildren snap root).Nodup := by
  rw [get_grandchildren_eq, List.nodup_flatMap]
  refine ⟨fun c _ => get_immediate_descendants_nodup snap hu c, ?_⟩
  refine List.Pairwise.imp ?_ (get_immediate_descendants_nodup snap hu root)
  intro c1 c2 hne
  show List.Disjoint (get_immediate_descendants snap c1) (get_immediate_descendants snap c2)
  intro p hp1 hp2
  obtain ⟨r1, hr1, hpid1, hpp1⟩ := (mem_get_immediate_descendants snap c1 p).1 hp1
  obtain ⟨r2, hr2, hpid2, hpp2⟩ := (mem_get_immediate_descendants snap c2 p).1 hp2
  have := pid_determines_parent snap hu r1 r2 hr1 hr2 (by rw [hpid1, hpid2])
  apply hne
  rw [← hpp1, ← hpp2, this]

/-- C22: on a snapshot with unique pids, the lists returned by
`get_descendants` (whenever it returns, as it does without a cycle and with
fuel for one loop test per record and one more), `get_immediate_descendants`,
`get_siblings` and `get_grandchildren` contain no pid twice, and so does
`get_defunct_descendants`, whose length `-dc` prints; every pid in any of
these lists is the pid of a record of the snapshot. -/
theorem resolver_lists_have_no_duplicate (snap : Snapshot) (hu : UniquePids snap)
    (fuel : Nat) (p : Int) :
    (NoCycle snap ∧ snap.length + 1 ≤ fuel →
      ∃ ds, get_descendants snap fuel p = some ds) ∧
    (∀ ds, get_descendants snap fuel p = some ds →
      ds.Nodup ∧ ∀ x ∈ ds, ∃ r ∈ snap, r.pid = x) ∧
    (∀ zs, get_defunct_descendants snap fuel p = some zs →
      zs.Nodup ∧ ∀ x ∈ zs, ∃ r ∈ snap, r.pid = x) ∧
    ((get_immediate_descendants snap p).Nodup ∧
      ∀ x ∈ get_immediate_descendants snap p, ∃ r ∈ snap, r.pid = x) ∧
    ((get_siblings snap p).Nodup ∧
      ∀ x ∈ get_siblings snap p, ∃ r ∈ snap, r.pid = x) ∧
    ((get_grandchildren snap p).Nodup ∧
      ∀ x ∈ get_grandchildren snap p, ∃ r ∈ snap, r.pid = x) := by
  have hdesc : ∀ ds, get_descendants snap fuel p = some ds →
      ds.Nodup ∧ ∀ x ∈ ds, ∃ r ∈ snap, r.pid = x := by
    intro ds hds
    exact ⟨get_descendants_nodup snap hu fuel p ds hds,
      fun x hx => ((mem_get_descendants snap fuel p ds hds x).1 hx).1⟩
  refine ⟨fun h => get_descendants_returns snap h.1 fuel h.2 p, hdesc, ?_, ?_, ?_, ?_⟩
  · intro zs hzs
    rw [get_defunct_descendants_eq] at hzs
    obtain ⟨ds, hds, hfilter⟩ := Option.map_eq_some'.1 hzs
    subst hfilter
    obtain ⟨hnd, hmem⟩ := hdesc ds hds
    exact ⟨List.Nodup.sublist (List.filter_sublist _) hnd,
      fun x hx => hmem x (List.mem_filter.1 hx).1⟩
  · refine ⟨get_immediate_descendants_nodup snap hu p, ?_⟩
    intro x hx
    obtain ⟨r, hr, hpid, _⟩ := (mem_get_immediate_descendants snap p x).1 hx
    exact ⟨r, hr, hpid⟩
  · refine ⟨get_siblings_nodup snap hu p, ?_⟩
    intro x hx
    obtain ⟨_, _, rb, hrb, hpid, _⟩ := (mem_get_siblings snap p x).1 hx
    exact ⟨rb, hrb, hpid⟩
  · refine ⟨get_grandchildren_nodup snap hu p, ?_⟩
    intro x hx
    rw [get_grandchildren_eq] at hx
    obtain ⟨c, _, hxc⟩ := List.mem_flatMap.1 hx
    obtain ⟨r, hr, hpid, _⟩ := (mem_get_immediate_descendants snap c x).1 hxc
    exact ⟨r, hr, hpid⟩

/-- C22 witness: pid 10 of the Scenario 1 tree, whose descendants are 20, 21
and 30. -/
theorem resolver_lists_have_no_duplicate_witness :
    get_descendants scenario1 6 10 = some [20, 21, 30] ∧
    ((NoCycle scenario1 ∧ scenario1.length + 1 ≤ 6 →
      ∃ ds, get_descendants scenario1 6 10 = some ds) ∧
    (∀ ds, get_descendants scenario1 6 10 = some ds →
      ds.Nodup ∧ ∀ x ∈ ds, ∃ r ∈ scenario1, r.pid = x) ∧
    (∀ zs, get_defunct_descendants scenario1 6 10 = some zs →
      zs.Nodup ∧ ∀ x ∈ zs, ∃ r ∈ scenario1, r.pid = x) ∧
    ((get_immediate_descendants scenario1 10).Nodup ∧
      ∀ x ∈ get_immediate_descendants scenario1 10, ∃ r ∈ scenario1, r.pid = x) ∧
    ((get_siblings scenario1 10).Nodup ∧
      ∀ x ∈ get_siblings scenario1 10, ∃ r ∈ scenario1, r.pid = x) ∧
    ((get_grandchildren scenario1 10).Nodup ∧
      ∀ x ∈ get_grandchildren scenario1 10, ∃ r ∈ scenario1, r.pid = x)) :=
  ⟨by decide, resolver_lists_have_no_duplicate scenario1 scenario1_unique 6 10⟩

/-! ## C23: grandchildren are non-direct descendants -/

/-- C23: on a snapshot with unique positive pids and no cycle of parent
links, in which a record with pid 1 has parent 0, for every root pid of at
least 1 and fuel for one loop test per record and one more,
`get_non_direct_descendants root` returns and contains every pid of
`get_grandchildren root`. -/
theorem grandchildren_are_non_direct (snap : Snapshot) (hu : UniquePids snap)
    (hpos : ∀ r ∈ snap, 0 < r.pid) (hac : NoCycle snap)
    (hinit : ∀ r ∈ snap, r.pid = 1 → r.ppid = 0) (root : Int) (hroot : 1 ≤ root)
    (fuel : Nat) (hf : snap.length + 1 ≤ fuel) :
    ∃ nd, get_non_direct_descendants snap fuel root = some nd ∧
      ∀ g ∈ get_grandchildren snap root, g ∈ nd := by
  obtain ⟨ds, hds⟩ := get_descendants_returns snap hac fuel hf root
  obtain ⟨nd, hnd, hmem⟩ := mem_get_non_direct_descendants snap fuel root ds hds
  refine ⟨nd, hnd, ?_⟩
  intro g hg
  rw [get_grandchildren_eq] at hg
  obtain ⟨c, hc, hgc⟩ := List.mem_flatMap.1 hg
  obtain ⟨rc, hrc, hrcpid, hrcpp⟩ := (mem_get_immediate_descendants snap root c).1 hc
  obtain ⟨rg, hrg, hrgpid, hrgpp⟩ := (mem_get_immediate_descendants snap c g).1 hgc
  have lc : parentLink snap c root := ⟨rc, hrc, hrcpid, hrcpp⟩
  have lg : parentLink snap g c := ⟨rg, hrg, hrgpid, hrgpp⟩
  have hc_ne_root : c ≠ root := by
    intro h
    rw [h] at lc
    exact hac root (Relation.TransGen.single lc)
  have hg_ne_root : g ≠ root := by
    intro h
    rw [h] at lg
    exact hac root (Relation.TransGen.tail (Relation.TransGen.single lg) lc)
  have hg_ne_c : g ≠ c := by
    intro h
    rw [h] at lg
    exact hac c (Relation.TransGen.single lg)
  have hc1 : 1 < c := by
    have h0 : 0 < c := by rw [← hrcpid]; exact hpos rc hrc
    by_contra hlt
    have h1 : rc.pid = 1 := by rw [hrcpid]; omega
    have := hinit rc hrc h1
    rw [hrcpp] at this
    omega
  have hg1 : 1 < g := by
    have h0 : 0 < g := by rw [← hrgpid]; exact hpos rg hrg
    by_contra hlt
    have h1 : rg.pid = 1 := by rw [hrgpid]; omega
    have := hinit rg hrg h1
    rw [hrgpp] at this
    omega
  rw [hmem g]
  constructor
  · rw [mem_get_descendants snap fuel root ds hds]
    refine ⟨⟨rg, hrg, hrgpid⟩, hg_ne_root, ?_⟩
    have hret := is_ancestor_returns snap hac fuel hf root g
    cases hres : is_ancestor snap fuel root g with
    | none => exact absurd hres hret
    | some b =>
      cases b with
      | true => rfl
      | false =>
        exfalso
        unfold is_ancestor at hres
        rw [if_neg (Ne.symm hg_ne_root)] at hres
        refine is_ancestor_loop_complete snap root hu
          (fun p hp => walkLink_acyclic hac p (Relation.TransGen.single hp)) fuel g ?_ hres
        exact Relation.TransGen.tail (Relation.TransGen.single ⟨hg1, lg⟩) ⟨hc1, lc⟩
  · intro himm
    obtain ⟨rg2, hrg2, hpid2, hpp2⟩ := (mem_get_immediate_descendants snap root g).1 himm
    have := pid_determines_parent snap hu rg rg2 hrg hrg2 (by rw [hrgpid, hpid2])
    apply hc_ne_root
    rw [← hrgpp, this, hpp2]

/-- C23 witness: root 10 of the Scenario 1 tree, whose only grandchild and
only non-direct descendant is 30. -/
theorem grandchildren_are_non_direct_witness :
    get_grandchildren scenario1 10 = [30] ∧
    ∃ nd, get_non_direct_descendants scenario1 6 10 = some nd ∧
      ∀ g ∈ get_grandchildren scenario1 10, g ∈ nd :=
  ⟨by decide, grandchildren_are_non_direct scenario1 scenario1_unique
    (by decide) scenario1_noCycle (by decide) 10 (by decide) 6 (by decide)⟩

end Prct
